import Mathlib

/-! Spoke-wheel LED demo: address mapping, fixed-point colour model, LED sink.

A shallow embedding of `bicycle/spokes/demo/demo.cpp`.

* C `int` values are modelled as `Int`; `/` and `%` on them are the truncating
  `Int.tdiv` and `Int.tmod`.
* `uint8_t` values are modelled as `Nat` below 256, every conversion to
  `uint8_t` being an explicit `% 256`; `int8_t` conversions are explicit too.
* A failed `assert` aborts the program: functions that assert return `Option`.
* A write to an array at computed indices outside the array is undefined
  behaviour: the animations that make such writes return `Option`, `none`
  standing for a write outside the array.
* The `static` locals of an animation are a state that a call takes and
  returns.
* The SDL renderer is explicit state: its current draw colour and the list of
  rectangles filled so far.
-/

namespace Spokes

/-! ## Constants -/

/-- The outer ring has 18 spokes (`const int SPOKE_COUNT = 18`). -/
def SPOKE_COUNT : Int := 18

/-- Number of rings (`const int RING_COUNT = 5`). -/
def RING_COUNT : Int := 5

/-- Window width (`const int WIDTH = 720`). -/
def WIDTH : Int := 720

/-- Window height (`const int HEIGHT = 480`). -/
def HEIGHT : Int := 480

/-- Side of the square drawn for one LED (`const int LED_WIDTH = 10`). -/
def LED_WIDTH : Int := 10

/-! ## Address mapping -/

/-- The function `_ringSpokeToIndex`. The `default:` branch of the `switch`
holds `assert(false)`, modelled as `none`. -/
def _ringSpokeToIndex (ring spoke : Int) : Option Int :=
  if ring < 0 ∨ ring ≥ RING_COUNT ∨ spoke < 0 ∨ spoke ≥ SPOKE_COUNT then
    some (-1)
  else
    match Int.tmod spoke 4 with
    | 0 => some ((Int.tdiv spoke 4) * 11 + ring)
    | 1 =>
      if ring ≠ RING_COUNT - 1 then
        some (-1)
      else
        some ((Int.tdiv spoke 4) * 11 + 5)
    | 2 => some ((Int.tdiv spoke 4) * 11 + 6 + RING_COUNT - 1 - ring)
    | 3 => some (-1)
    | _ => none

/-- The function `ringSpokeToIndex`: `assert(value < 50)` on the value of
`_ringSpokeToIndex`, a failed assertion being `none`. -/
def ringSpokeToIndex (ring spoke : Int) : Option Int :=
  match _ringSpokeToIndex ring spoke with
  | none => none
  | some value => if value < 50 then some value else none

/-! ## Fixed-point math -/

/-- Conversion of a C `int` to `uint8_t` (reduction modulo 256). -/
def toUInt8 (x : Int) : Nat := (x % 256).toNat

/-- Conversion of a C `int` to `int8_t` (two's complement wrap-around). -/
def toInt8 (x : Int) : Int := (x + 128) % 256 - 128

/-- The table `b_m16_interleave`: (base, slope * 16) pairs of the four
sections of a quarter wave. -/
def b_m16_interleave : List Nat := [0, 49, 49, 41, 90, 27, 117, 10]

/-- The function `sin8`, for an 8-bit `theta`. The pointer reads `*p` are list
lookups; the index `s2` and `s2 + 1` are at most 7. -/
def sin8 (theta : Nat) : Nat :=
  let offset : Nat := theta
  let offset : Nat := if theta &&& 0x40 ≠ 0 then toUInt8 (255 - (offset : Int)) else offset
  let offset : Nat := offset &&& 0x3F
  let secoffset : Nat := offset &&& 0x0F
  let secoffset : Nat := if theta &&& 0x40 ≠ 0 then (secoffset + 1) % 256 else secoffset
  let section_ : Nat := offset >>> 4
  let s2 : Nat := (section_ * 2) % 256
  let b : Nat := b_m16_interleave.getD s2 0
  let m16 : Nat := b_m16_interleave.getD (s2 + 1) 0
  let mx : Nat := ((m16 * secoffset) >>> 4) % 256
  let y : Int := toInt8 ((mx : Int) + (b : Int))
  let y : Int := if theta &&& 0x80 ≠ 0 then toInt8 (-y) else y
  let y : Int := toInt8 (y + 128)
  toUInt8 y

/-- The three 8-bit output channels that `hsvToRgb` writes through its
pointers. -/
structure Rgb where
  red : Nat
  green : Nat
  blue : Nat
  deriving DecidableEq, Repr

/-- The function `hsvToRgb`, for 8-bit arguments. The arithmetic is done in
`int` as C promotes it; each store to an `unsigned char` reduces modulo 256. -/
def hsvToRgb (hue saturation value : Nat) : Rgb :=
  if saturation = 0 then
    { red := value, green := value, blue := value }
  else
    let region : Nat := toUInt8 (Int.tdiv (hue : Int) 43)
    let remainder : Nat := toUInt8 (((hue : Int) - ((region : Int) * 43)) * 6)
    let p : Nat := toUInt8 (((value : Int) * (255 - (saturation : Int))) >>> 8)
    let q : Nat :=
      toUInt8 (((value : Int) * (255 - (((saturation : Int) * (remainder : Int)) >>> 8))) >>> 8)
    let t : Nat :=
      toUInt8 (((value : Int) *
        (255 - (((saturation : Int) * (255 - (remainder : Int))) >>> 8))) >>> 8)
    match region with
    | 0 => { red := value, green := t, blue := p }
    | 1 => { red := q, green := value, blue := p }
    | 2 => { red := p, green := value, blue := t }
    | 3 => { red := p, green := q, blue := value }
    | 4 => { red := t, green := p, blue := value }
    | _ => { red := value, green := p, blue := q }

/-! ## The display surface and the LED sink -/

/-- An `SDL_Rect`. -/
structure SDL_Rect where
  x : Int
  y : Int
  w : Int
  h : Int
  deriving DecidableEq, Repr

/-- An RGBA draw colour, each channel 8 bits. -/
structure DrawColor where
  r : Nat
  g : Nat
  b : Nat
  a : Nat
  deriving DecidableEq, Repr

/-- The display surface behind `SDL_Renderer *`: the current draw colour and
the rectangles filled so far, oldest first, each with the colour it was
filled with. -/
structure Renderer where
  drawColor : DrawColor
  fills : List (SDL_Rect × DrawColor)
  deriving DecidableEq, Repr

/-- The call `SDL_SetRenderDrawColor(renderer, r, g, b, a)`. -/
def SDL_SetRenderDrawColor (renderer : Renderer) (r g b a : Nat) : Renderer :=
  { renderer with drawColor := { r := r, g := g, b := b, a := a } }

/-- The call `SDL_RenderFillRect(renderer, &rectangle)`: fills with the current
draw colour. -/
def SDL_RenderFillRect (renderer : Renderer) (rectangle : SDL_Rect) : Renderer :=
  { renderer with fills := renderer.fills ++ [(rectangle, renderer.drawColor)] }

/-- The polar layout of `setLed`. The source computes
`xOffset = spacing * (ring + 3) * sinf(angle_r)` and
`yOffset = spacing * (ring + 3) * cosf(angle_r)` in single-precision floating
point and truncates to `int`; those two results are taken as given. -/
structure PolarLayout where
  xOffset : Int → Int → Int
  yOffset : Int → Int → Int

/-- The rectangle `setLed` fills for a cell: the assignments to `rectangle.x`,
`.y`, `.w` and `.h`. -/
def ledRectangle (layout : PolarLayout) (ring spoke : Int) : SDL_Rect :=
  { x := Int.tdiv WIDTH 2 + layout.xOffset ring spoke
    y := Int.tdiv HEIGHT 2 - layout.yOffset ring spoke
    w := LED_WIDTH
    h := LED_WIDTH }

/-- The function `setLed`. -/
def setLed (layout : PolarLayout) (ring spoke : Int) (red green blue : Nat)
    (renderer : Renderer) : Renderer :=
  if spoke ≥ 0 ∧ spoke < SPOKE_COUNT then
    if ring ≥ 0 ∧ ring < RING_COUNT then
      -- The inner spokes are only half wired up, so skip them
      if ring ≠ RING_COUNT - 1 ∧ Int.tmod spoke 2 = 1 then
        renderer
      -- The outer ring is only 3/4 hooked up
      else if ring = RING_COUNT - 1 ∧ Int.tmod spoke 4 = 3 then
        renderer
      else
        let rectangle := ledRectangle layout ring spoke
        let renderer := SDL_SetRenderDrawColor renderer red green blue 255
        SDL_RenderFillRect renderer rectangle
    else renderer
  else renderer

/-- The function `setLedHue`. -/
def setLedHue (layout : PolarLayout) (ring spoke : Int) (h : Nat)
    (renderer : Renderer) : Renderer :=
  let c := hsvToRgb h 255 255
  setLed layout ring spoke c.red c.green c.blue renderer

/-! ## Animations -/

/-- What every animation returns: its name and the delay it asks for. -/
structure AnimationResult where
  functionName : String
  delay_ms : Int
  deriving DecidableEq, Repr

/-- A loop `for (int i = lo; i < hi; ++i) body`, threading the state `s`
through the iterations. -/
def forLoop {σ : Type} (lo hi : Int) (body : Int → σ → σ) (s : σ) : σ :=
  (List.range (hi - lo).toNat).foldl (fun acc (k : Nat) => body (lo + (k : Int)) acc) s

/-- The `static` local of `lightAll`. -/
structure LightAllState where
  hue : Nat
  deriving DecidableEq, Repr

/-- The value of the `static` local of `lightAll` before the first call. -/
def LightAllState.fresh : LightAllState := { hue := 0 }

/-- The function `lightAll`: one call, from the state of its `static` local and
the surface to the result, the new state and the new surface. -/
def lightAll (layout : PolarLayout) (st : LightAllState) (renderer : Renderer) :
    AnimationResult × LightAllState × Renderer :=
  let renderer :=
    forLoop 0 RING_COUNT (fun ring renderer =>
      forLoop 0 SPOKE_COUNT (fun spoke renderer =>
        setLedHue layout ring spoke st.hue renderer) renderer) renderer
  let hue := (st.hue + 1) % 256
  ({ functionName := "lightAll", delay_ms := 30 }, { hue := hue }, renderer)

/-- The states of `lightAll` and of the surface after `n` calls from the fresh
state on the surface `renderer`. -/
def lightAllRun (layout : PolarLayout) (renderer : Renderer) : Nat → LightAllState × Renderer
  | 0 => (LightAllState.fresh, renderer)
  | n + 1 => (lightAll layout (lightAllRun layout renderer n).1 (lightAllRun layout renderer n).2).2

/-- The function `setLedFire`, for an 8-bit `v`. -/
def setLedFire (layout : PolarLayout) (ring spoke : Int) (v : Nat) (renderer : Renderer) :
    Renderer :=
  let red : Nat := toUInt8 (if v < 128 then (v : Int) * 2 else 255)
  let green : Nat := toUInt8 (if v ≥ 128 then ((v : Int) - 128) * 2 else 0)
  setLed layout ring spoke red green 0 renderer

/-! ## The animation loop of `main` -/

/-- Conversion of a C `int` to `size_t` (64 bits), as in the usual arithmetic
conversions of `int % size_t`. -/
def toSizeT (x : Int) : Int := x % 2 ^ 64

/-- The value of `COUNT_OF(animations)`: the table in `main` has 18 entries. -/
def COUNT_OF_animations : Int := 18

/-- The statement `animationIndex = (animationIndex + 1) % COUNT_OF(animations)`
under the label `nextAnimation`. -/
def nextAnimationIndex (animationIndex : Int) : Int :=
  Int.tmod (toSizeT (animationIndex + 1)) COUNT_OF_animations

/-- The statements `--animationIndex; if (animationIndex < 0) animationIndex =
COUNT_OF(animations) - 1;` under the label `previousAnimation`. -/
def previousAnimationIndex (animationIndex : Int) : Int :=
  let animationIndex := animationIndex - 1
  if animationIndex < 0 then COUNT_OF_animations - 1 else animationIndex

/-- What the `switch (event.type)` of `main` distinguishes: `SDL_QUIT`, the
right arrow key or left mouse button, the left arrow key or right mouse
button, and everything else. -/
inductive Event where
  | quit
  | next
  | previous
  | other
  deriving DecidableEq, Repr

/-- The variables of the animation loop of `main`. The type `ω` holds what the
animations own and draw on: their `static` locals and the display surface. -/
structure LoopState (ω : Type) where
  shouldClose : Bool
  animationIndex : Int
  /-- The remaining delay, `result.delay_ms`. -/
  delay_ms : Int
  animation_ms : Int
  /-- The window title last set by `SDL_SetWindowTitle`. -/
  title : String
  world : ω

/-- The body of `switch (event.type)` for one polled event. The table
`animations` is a parameter: `animations i` is the call `animations[i](renderer)`.
The calls under `nextAnimation` and `previousAnimation` keep the
`functionName` of the result only. -/
def handleEvent {ω : Type} (animations : Int → ω → AnimationResult × ω)
    (s : LoopState ω) (event : Event) : LoopState ω :=
  match event with
  | Event.quit => { s with shouldClose := true }
  | Event.next =>
    let animationIndex := nextAnimationIndex s.animationIndex
    let called := animations animationIndex s.world
    let name := called.1.functionName
    { s with animationIndex := animationIndex, world := called.2, title := name }
  | Event.previous =>
    let animationIndex := previousAnimationIndex s.animationIndex
    let called := animations animationIndex s.world
    let name := called.1.functionName
    { s with animationIndex := animationIndex, world := called.2, title := name }
  | Event.other => s

/-- The result each entry of the table `animations` returns, in the order of
the table: every animation ends in `return AnimationResult(__func__, d)` with
a constant `d`. -/
def animationResults : List AnimationResult :=
  [⟨"outerHue", 25⟩, ⟨"outerRipple", 50⟩, ⟨"pendulum", 40⟩, ⟨"orbit", 40⟩,
   ⟨"triadOrbits", 40⟩, ⟨"blurredSpiral", 100⟩, ⟨"blurredSpiralHues", 100⟩,
   ⟨"fadingRainbowRings", 25⟩, ⟨"cometsShort", 100⟩, ⟨"comets", 100⟩,
   ⟨"outwardRippleHue", 25⟩, ⟨"singleSpiral", 100⟩, ⟨"outwardRipple", 25⟩,
   ⟨"spiral", 25⟩, ⟨"lightAll", 30⟩, ⟨"spinSingle", 25⟩, ⟨"fastOutwardHue", 25⟩,
   ⟨"fastInwardHue", 25⟩]


/-! ## Brightness grids -/

/-- A `static uint8_t brightness[RING_COUNT][SPOKE_COUNT]` array: the list of
its rows. -/
structure Grid where
  rows : List (List Nat)
  deriving DecidableEq, Repr

/-- The initial value `{0}` of a brightness array. -/
def Grid.zero : Grid := { rows := List.replicate 5 (List.replicate 18 0) }

/-- The read `brightness[ring][spoke]`, for indices inside the array. -/
def Grid.read (brightness : Grid) (ring spoke : Int) : Nat :=
  (brightness.rows.getD ring.toNat []).getD spoke.toNat 0

/-- The write `brightness[ring][spoke] = v`, for indices inside the array. -/
def Grid.write (brightness : Grid) (ring spoke : Int) (v : Nat) : Grid :=
  { rows := brightness.rows.set ring.toNat
      ((brightness.rows.getD ring.toNat []).set spoke.toNat v) }

/-- The write `brightness[ring][spoke] = v` at computed indices: outside the
array the behaviour is undefined, which is `none`. -/
def Grid.store (brightness : Grid) (ring spoke : Int) (v : Nat) : Option Grid :=
  if 0 ≤ ring ∧ ring < RING_COUNT ∧ 0 ≤ spoke ∧ spoke < SPOKE_COUNT then
    some (brightness.write ring spoke v)
  else none

/-- The loop that opens `orbit`, `triadOrbits` and `pendulum`, which differ in
the constant `fade` only: every cell of the grid fades and is drawn in the
hue `hue` with its new brightness. -/
def drawFades (layout : PolarLayout) (fade : Int) (hue : Nat) (brightness : Grid)
    (renderer : Renderer) : Grid × Renderer :=
  forLoop 0 RING_COUNT (fun ring s =>
    forLoop 0 SPOKE_COUNT (fun spoke s =>
      let brightness := s.1
      let renderer := s.2
      let brightness :=
        if brightness.read ring spoke = 255 then
          brightness.write ring spoke 128
        else if (brightness.read ring spoke : Int) > fade then
          brightness.write ring spoke (toUInt8 ((brightness.read ring spoke : Int) - fade))
        else
          brightness.write ring spoke 0
      let c := hsvToRgb hue 255 (brightness.read ring spoke)
      (brightness, setLed layout ring spoke c.red c.green c.blue renderer)) s)
    (brightness, renderer)

/-- The two statements `setLedHue(ring, spoke, hue, renderer);
brightness[ring][spoke] = 255;` by which `orbit`, `triadOrbits` and `pendulum`
light the moving ball. The result is `none` when the write is outside the
array, and stays `none` once it is. -/
def drawBall (layout : PolarLayout) (ring spoke : Int) (hue : Nat)
    (s : Option (Grid × Renderer)) : Option (Grid × Renderer) :=
  match s with
  | none => none
  | some (brightness, renderer) =>
    let renderer := setLedHue layout ring spoke hue renderer
    match brightness.store ring spoke 255 with
    | none => none
    | some brightness => some (brightness, renderer)

/-- A loop `for (int i = lo; i < hi; i += step) body` with `step > 0`,
threading the state `s` through the iterations. -/
def forLoopStep {σ : Type} (lo hi step : Int) (body : Int → σ → σ) (s : σ) : σ :=
  (List.range ((hi - lo + step - 1) / step).toNat).foldl
    (fun acc (k : Nat) => body (lo + step * (k : Int)) acc) s

/-! ## The animations `orbit`, `triadOrbits` and `pendulum` -/

/-- The `static` locals of `orbit`; `triadOrbits` has the same ones. -/
structure OrbitState where
  currentSpoke : Int
  position : Int
  speed : Int
  hue : Nat
  brightness : Grid
  deriving DecidableEq, Repr

/-- The values of the `static` locals of `orbit` and of `triadOrbits` before
the first call: `startSpeed` is 13. -/
def OrbitState.fresh : OrbitState :=
  { currentSpoke := 0, position := -13, speed := 13, hue := 0, brightness := Grid.zero }

/-- The function `orbit`: one call. The result is `none` when the write
`brightness[position / divisor][currentSpoke] = 255` is outside the array. -/
def orbit (layout : PolarLayout) (st : OrbitState) (renderer : Renderer) :
    Option (AnimationResult × OrbitState × Renderer) :=
  let startSpeed : Int := 13
  let divisor : Int := 16
  let fade : Int := 5
  let faded := drawFades layout fade st.hue st.brightness renderer
  -- The ball should always be maximum brightness
  match drawBall layout (Int.tdiv st.position divisor) st.currentSpoke st.hue (some faded) with
  | none => none
  | some (brightness, renderer) =>
    let position := st.position + st.speed
    let wrapped : Int × Int × Int :=
      if position < 0 then
        (0, startSpeed, Int.tmod (st.currentSpoke + Int.tdiv SPOKE_COUNT 2 + 1) SPOKE_COUNT)
      else (position, st.speed, st.currentSpoke)
    let speed := wrapped.2.1 - 1
    let hue := (st.hue + 1) % 256
    some ({ functionName := "orbit", delay_ms := 40 },
      { currentSpoke := wrapped.2.2, position := wrapped.1, speed := speed, hue := hue,
        brightness := brightness },
      renderer)

/-- The function `triadOrbits`: one call. The result is `none` when a write
`brightness[position / divisor][spoke] = 255` is outside the array. -/
def triadOrbits (layout : PolarLayout) (st : OrbitState) (renderer : Renderer) :
    Option (AnimationResult × OrbitState × Renderer) :=
  let startSpeed : Int := 13
  let divisor : Int := 16
  let fade : Int := 10
  -- Draw all the fades
  let faded := drawFades layout fade st.hue st.brightness renderer
  -- The ball should always be maximum brightness
  let balls : Option (Grid × Renderer) :=
    forLoopStep st.currentSpoke SPOKE_COUNT 6 (fun spoke s =>
      drawBall layout (Int.tdiv st.position divisor) spoke st.hue s) (some faded)
  match balls with
  | none => none
  | some (brightness, renderer) =>
    let position := st.position + st.speed
    let wrapped : Int × Int × Int × Nat :=
      if position < 0 then
        (0, startSpeed, Int.tmod (st.currentSpoke + 2) 6, (st.hue + 50) % 256)
      else (position, st.speed, st.currentSpoke, st.hue)
    let speed := wrapped.2.1 - 1
    let hue := (wrapped.2.2.2 + 1) % 256
    some ({ functionName := "triadOrbits", delay_ms := 40 },
      { currentSpoke := wrapped.2.2.1, position := wrapped.1, speed := speed, hue := hue,
        brightness := brightness },
      renderer)

/-- The `static` locals of `pendulum`. -/
structure PendulumState where
  position : Int
  speed : Int
  hue : Nat
  brightness : Grid
  deriving DecidableEq, Repr

/-- The values of the `static` locals of `pendulum` before the first call:
`position` is `divisor * 2 + divisor / 3` with `divisor = 16`. -/
def PendulumState.fresh : PendulumState :=
  { position := 16 * 2 + Int.tdiv 16 3, speed := 0, hue := 0, brightness := Grid.zero }

/-- The function `pendulum`: one call. The result is `none` when a write
`brightness[ring][position / divisor] = 255` is outside the array. -/
def pendulum (layout : PolarLayout) (st : PendulumState) (renderer : Renderer) :
    Option (AnimationResult × PendulumState × Renderer) :=
  let divisor : Int := 16
  let fade : Int := 10
  let faded := drawFades layout fade st.hue st.brightness renderer
  -- The pendulum should always be maximum brightness
  let column : Option (Grid × Renderer) :=
    forLoop 0 RING_COUNT (fun ring s =>
      drawBall layout ring (Int.tdiv st.position divisor) st.hue s) (some faded)
  match column with
  | none => none
  | some (brightness, renderer) =>
    let position := st.position + st.speed
    let speed := if position ≥ 9 * divisor then st.speed - 1 else st.speed + 1
    let hue := (st.hue + 1) % 256
    some ({ functionName := "pendulum", delay_ms := 40 },
      { position := position, speed := speed, hue := hue, brightness := brightness },
      renderer)

/-- The state and the surface after `n` calls of an animation that can fail,
starting from the state and the surface `start`. -/
def runFallible {σ : Type} (animation : σ → Renderer → Option (AnimationResult × σ × Renderer))
    (start : σ × Renderer) : Nat → Option (σ × Renderer)
  | 0 => some start
  | n + 1 =>
    match runFallible animation start n with
    | none => none
    | some (st, renderer) =>
      match animation st renderer with
      | none => none
      | some called => some called.2


/-! ## The animation `fadingRainbowRings` -/

/-- A loop `for (int i = hi; i > lo; --i) body`, threading the state `s`
through the iterations. -/
def forLoopDown {σ : Type} (hi lo : Int) (body : Int → σ → σ) (s : σ) : σ :=
  (List.range (hi - lo).toNat).foldl (fun acc (k : Nat) => body (hi - (k : Int)) acc) s

/-- The `enum class Status` of `fadingRainbowRings`. -/
inductive Status where
  | fadingIn
  | fadingOut
  deriving DecidableEq, Repr

/-- The table `rainbowHues`: red yellow green aqua-blue purple. -/
def rainbowHues : List Nat := [0, 41, 80, 145, 216]

/-- The read `rainbowHues[i % COUNT_OF(rainbowHues)]` for an `int` `i`: the
count is a `size_t`, so `i` is converted to `size_t` before the remainder is
taken and the index is below 5. -/
def rainbowHueAt (i : Int) : Nat :=
  rainbowHues.getD (Int.tmod (toSizeT i) 5).toNat 0

/-- The `static` locals of `fadingRainbowRings`. -/
structure FadingRainbowRingsState where
  startHueIndex : Int
  currentRing : Int
  value : Nat
  status : Status
  deriving DecidableEq, Repr

/-- The values of the `static` locals of `fadingRainbowRings` before the first
call. -/
def FadingRainbowRingsState.fresh : FadingRainbowRingsState :=
  { startHueIndex := 0, currentRing := 0, value := 40, status := Status.fadingIn }

/-- The function `fadingRainbowRings`: one call. -/
def fadingRainbowRings (layout : PolarLayout) (st : FadingRainbowRingsState)
    (renderer : Renderer) : AnimationResult × FadingRainbowRingsState × Renderer :=
  let change : Int := 20
  if st.status = Status.fadingIn then
    -- Previous rings
    let renderer :=
      forLoop 0 st.currentRing (fun ring renderer =>
        let hue := rainbowHueAt (st.startHueIndex + ring)
        let c := hsvToRgb hue 255 255
        forLoop 0 SPOKE_COUNT (fun spoke renderer =>
          setLed layout ring spoke c.red c.green c.blue renderer) renderer) renderer
    -- Current ring
    let hue := rainbowHueAt (st.startHueIndex + st.currentRing)
    let c := hsvToRgb hue 255 st.value
    let renderer :=
      forLoop 0 SPOKE_COUNT (fun spoke renderer =>
        setLed layout st.currentRing spoke c.red c.green c.blue renderer) renderer
    let renderer :=
      if st.currentRing = RING_COUNT - 1 then
        forLoop SPOKE_COUNT (SPOKE_COUNT * 2) (fun spoke renderer =>
          setLed layout st.currentRing spoke c.red c.green c.blue renderer) renderer
      else renderer
    let next : FadingRainbowRingsState :=
      if (st.value : Int) < 255 - change then
        { st with value := toUInt8 ((st.value : Int) + change) }
      else if st.currentRing + 1 ≥ RING_COUNT then
        { st with currentRing := 0, status := Status.fadingOut, value := 250 }
      else
        { st with currentRing := st.currentRing + 1, value := 0 }
    ({ functionName := "fadingRainbowRings", delay_ms := 25 }, next, renderer)
  else
    -- Current ring
    let hue := rainbowHueAt (st.startHueIndex + st.currentRing)
    let c := hsvToRgb hue 255 st.value
    let renderer :=
      forLoop 0 SPOKE_COUNT (fun spoke renderer =>
        setLed layout st.currentRing spoke c.red c.green c.blue renderer) renderer
    let renderer :=
      if st.currentRing = RING_COUNT - 1 then
        forLoop SPOKE_COUNT (SPOKE_COUNT * 2) (fun spoke renderer =>
          setLed layout st.currentRing spoke c.red c.green c.blue renderer) renderer
      else renderer
    -- Previous rings
    let renderer :=
      forLoopDown (RING_COUNT - 1) st.currentRing (fun ring renderer =>
        let hue := rainbowHueAt (st.startHueIndex + ring)
        let c := hsvToRgb hue 255 255
        let renderer :=
          forLoop 0 SPOKE_COUNT (fun spoke renderer =>
            setLed layout ring spoke c.red c.green c.blue renderer) renderer
        if ring = RING_COUNT - 1 then
          forLoop SPOKE_COUNT (SPOKE_COUNT * 2) (fun spoke renderer =>
            setLed layout (RING_COUNT - 1) spoke c.red c.green c.blue renderer) renderer
        else renderer) renderer
    let next : FadingRainbowRingsState :=
      if (st.value : Int) > change then
        { st with value := toUInt8 ((st.value : Int) - change) }
      else if st.currentRing + 1 ≥ RING_COUNT then
        { currentRing := 0, status := Status.fadingIn, value := 0,
          startHueIndex := Int.tmod (toSizeT (st.startHueIndex + 1)) 5 }
      else
        { st with currentRing := st.currentRing + 1, value := 255 }
    ({ functionName := "fadingRainbowRings", delay_ms := 25 }, next, renderer)

/-- The state and the surface after `n` calls of an animation, starting from
the state and the surface `start`. -/
def runCalls {σ : Type} (animation : σ → Renderer → AnimationResult × σ × Renderer)
    (start : σ × Renderer) : Nat → σ × Renderer
  | 0 => start
  | n + 1 => (animation (runCalls animation start n).1 (runCalls animation start n).2).2


/-! ## Definitions used to state the properties -/

/-- The value of the sum `mx + b` in `sin8`, before it is stored into the
`int8_t` variable `y`: the same statements as in `sin8`, up to that sum. -/
def sin8Amplitude (theta : Nat) : Nat :=
  let offset : Nat := theta
  let offset : Nat := if theta &&& 0x40 ≠ 0 then toUInt8 (255 - (offset : Int)) else offset
  let offset : Nat := offset &&& 0x3F
  let secoffset : Nat := offset &&& 0x0F
  let secoffset : Nat := if theta &&& 0x40 ≠ 0 then (secoffset + 1) % 256 else secoffset
  let section_ : Nat := offset >>> 4
  let s2 : Nat := (section_ * 2) % 256
  let b : Nat := b_m16_interleave.getD s2 0
  let m16 : Nat := b_m16_interleave.getD (s2 + 1) 0
  let mx : Nat := ((m16 * secoffset) >>> 4) % 256
  mx + b

/-- The simulator's wiring rule in the words of the specification: a cell of
the 5 x 18 grid is populated when it is on an inner ring and an even spoke, or
on the outer ring and a spoke that is not 3 modulo 4. -/
def simulatorWired (ring spoke : Int) : Bool :=
  decide (0 ≤ ring ∧ ring < 5 ∧ 0 ≤ spoke ∧ spoke < 18 ∧
    ((ring < 4 ∧ spoke % 2 = 0) ∨ (ring = 4 ∧ spoke % 4 ≠ 3)))

/-- The cells `(ring, spoke)` of the 5 x 18 grid, ring by ring and within a
ring by increasing spoke. -/
def gridCells : List (Int × Int) :=
  (List.range 5).flatMap (fun ring => (List.range 18).map (fun spoke => ((ring : Int), (spoke : Int))))

/-- The populated cells of the 5 x 18 grid, in the order of `gridCells`. -/
def wiredCells : List (Int × Int) :=
  gridCells.filter (fun cell => simulatorWired cell.1 cell.2)

/-- The entry of the fill list that one drawing call of `setLed` adds. -/
def ledFill (layout : PolarLayout) (ring spoke : Int) (red green blue : Nat) :
    SDL_Rect × DrawColor :=
  (ledRectangle layout ring spoke, { r := red, g := green, b := blue, a := 255 })

/-- The colour `setLedFire` passes to `setLed`: its locals `red` and `green`
and the constant 0 for blue. -/
def setLedFireColour (v : Nat) : Rgb :=
  { red := toUInt8 (if v < 128 then (v : Int) * 2 else 255)
    green := toUInt8 (if v ≥ 128 then ((v : Int) - 128) * 2 else 0)
    blue := 0 }

/-- The hardware-index wiring rule: `ringSpokeToIndex` returns something other
than the sentinel -1. -/
def indexWired (ring spoke : Int) : Bool :=
  decide (ringSpokeToIndex ring spoke ≠ some (-1))

/-- The spokes among `4k .. 4k+3` that `ringSpokeToIndex` wires on exactly the
rings of the list `rings` (out of the rings 0 .. 4). -/
def spokesWiredExactlyOn (rings : List Int) (k : Int) : List Int :=
  ([0, 1, 2, 3].map (fun j => 4 * k + j)).filter (fun spoke =>
    [0, 1, 2, 3, 4].all (fun ring => indexWired ring spoke == decide (ring ∈ rings)))

/-- The table `animations` with the effect of the calls left out: entry `i`
returns the result of the `i`-th animation and leaves the world alone. -/
def resultsOnly (i : Int) (world : Unit) : AnimationResult × Unit :=
  (animationResults.getD i.toNat ⟨"", 0⟩, world)


/-- What one call of `orbit` or of `triadOrbits` does to the pair
(position, speed): `position += speed`, the restart when the position has
become negative, and `--speed`. -/
def orbitMotion (p : Int × Int) : Int × Int :=
  let position := p.1 + p.2
  let wrapped : Int × Int := if position < 0 then (0, 13) else (position, p.2)
  (wrapped.1, wrapped.2 - 1)

/-- The pairs (position, speed) of the first 27 calls of `orbit`. -/
def orbitMotionStates : List (Int × Int) := List.iterate orbitMotion (-13, 13) 27

/-- What one call of `pendulum` does to the pair (position, speed). -/
def pendulumMotion (p : Int × Int) : Int × Int :=
  (p.1 + p.2, if p.1 + p.2 ≥ 9 * 16 then p.2 - 1 else p.2 + 1)

/-- The colour last filled into the rectangle `rectangle`, if any: what the
surface shows there. -/
def shownColour (fills : List (SDL_Rect × DrawColor)) (rectangle : SDL_Rect) :
    Option DrawColor :=
  ((fills.filter (fun fill => fill.1 = rectangle)).getLast?).map (fun fill => fill.2)


/-- What the loop of `drawFades` does to the brightness array at one cell. -/
def fadeCell (fade : Int) (brightness : Grid) (ring spoke : Int) : Grid :=
  if brightness.read ring spoke = 255 then
    brightness.write ring spoke 128
  else if (brightness.read ring spoke : Int) > fade then
    brightness.write ring spoke (toUInt8 ((brightness.read ring spoke : Int) - fade))
  else
    brightness.write ring spoke 0

/-- The calls of `setLed` that `drawFades` makes over the cells `cells`, as the
list of their cells and colours, next to the brightness array it leaves. -/
def drawFadesLog (fade : Int) (hue : Nat) (cells : List (Int × Int))
    (start : Grid × List ((Int × Int) × Rgb)) : Grid × List ((Int × Int) × Rgb) :=
  cells.foldl (fun s cell =>
    (fadeCell fade s.1 cell.1 cell.2,
      s.2 ++ [(cell, hsvToRgb hue 255 ((fadeCell fade s.1 cell.1 cell.2).read cell.1 cell.2))]))
    start

/-- The calls of `setLed` of a list of cells and colours, in order. -/
def setLedAll (layout : PolarLayout) (calls : List ((Int × Int) × Rgb)) (renderer : Renderer) :
    Renderer :=
  calls.foldl (fun renderer call =>
    setLed layout call.1.1 call.1.2 call.2.red call.2.green call.2.blue renderer) renderer


/-- The function `fadingRainbowRings` with its three loops over the spokes in
`[SPOKE_COUNT, 2 * SPOKE_COUNT)` removed, and nothing else changed. -/
def fadingRainbowRingsWithoutExtraLoops (layout : PolarLayout) (st : FadingRainbowRingsState)
    (renderer : Renderer) : AnimationResult × FadingRainbowRingsState × Renderer :=
  let change : Int := 20
  if st.status = Status.fadingIn then
    -- Previous rings
    let renderer :=
      forLoop 0 st.currentRing (fun ring renderer =>
        let hue := rainbowHueAt (st.startHueIndex + ring)
        let c := hsvToRgb hue 255 255
        forLoop 0 SPOKE_COUNT (fun spoke renderer =>
          setLed layout ring spoke c.red c.green c.blue renderer) renderer) renderer
    -- Current ring
    let hue := rainbowHueAt (st.startHueIndex + st.currentRing)
    let c := hsvToRgb hue 255 st.value
    let renderer :=
      forLoop 0 SPOKE_COUNT (fun spoke renderer =>
        setLed layout st.currentRing spoke c.red c.green c.blue renderer) renderer
    let next : FadingRainbowRingsState :=
      if (st.value : Int) < 255 - change then
        { st with value := toUInt8 ((st.value : Int) + change) }
      else if st.currentRing + 1 ≥ RING_COUNT then
        { st with currentRing := 0, status := Status.fadingOut, value := 250 }
      else
        { st with currentRing := st.currentRing + 1, value := 0 }
    ({ functionName := "fadingRainbowRings", delay_ms := 25 }, next, renderer)
  else
    -- Current ring
    let hue := rainbowHueAt (st.startHueIndex + st.currentRing)
    let c := hsvToRgb hue 255 st.value
    let renderer :=
      forLoop 0 SPOKE_COUNT (fun spoke renderer =>
        setLed layout st.currentRing spoke c.red c.green c.blue renderer) renderer
    -- Previous rings
    let renderer :=
      forLoopDown (RING_COUNT - 1) st.currentRing (fun ring renderer =>
        let hue := rainbowHueAt (st.startHueIndex + ring)
        let c := hsvToRgb hue 255 255
        forLoop 0 SPOKE_COUNT (fun spoke renderer =>
          setLed layout ring spoke c.red c.green c.blue renderer) renderer) renderer
    let next : FadingRainbowRingsState :=
      if (st.value : Int) > change then
        { st with value := toUInt8 ((st.value : Int) - change) }
      else if st.currentRing + 1 ≥ RING_COUNT then
        { currentRing := 0, status := Status.fadingIn, value := 0,
          startHueIndex := Int.tmod (toSizeT (st.startHueIndex + 1)) 5 }
      else
        { st with currentRing := st.currentRing + 1, value := 255 }
    ({ functionName := "fadingRainbowRings", delay_ms := 25 }, next, renderer)

/-- The state of `fadingRainbowRings` after `n` calls from its fresh state. -/
def fadingRainbowRingsStateAfter (layout : PolarLayout) (renderer : Renderer) (n : Nat) :
    FadingRainbowRingsState :=
  (runCalls (fadingRainbowRings layout) (FadingRainbowRingsState.fresh, renderer) n).1


/-- The number of restarts of the ball ("wraps") among the first `n` calls of
`orbit` from its fresh state: the calls number 27, 53, 79, ... restart it. -/
def orbitWraps (n : Nat) : Nat := (n - 1) / 26


/-- The value of the local `remainder` of `hsvToRgb`. -/
def hsvRemainder (hue : Nat) : Nat :=
  toUInt8 (((hue : Int) - ((toUInt8 (Int.tdiv (hue : Int) 43) : Nat) : Int) * 43) * 6)

/-- The value of the local `p` of `hsvToRgb`. -/
def hsvP (saturation value : Nat) : Nat :=
  toUInt8 (((value : Int) * ((255 : Int) - (saturation : Int))) >>> 8)

/-- The value of the local `q` of `hsvToRgb`. -/
def hsvQ (hue saturation value : Nat) : Nat :=
  toUInt8 (((value : Int) *
    ((255 : Int) - (((saturation : Int) * (hsvRemainder hue : Int)) >>> 8))) >>> 8)

/-- The value of the local `t` of `hsvToRgb`. -/
def hsvT (hue saturation value : Nat) : Nat :=
  toUInt8 (((value : Int) *
    ((255 : Int) - (((saturation : Int) * ((255 : Int) - (hsvRemainder hue : Int))) >>> 8))) >>> 8)


end Spokes

namespace Spokes

/-! ## Address mapping: theorems -/

/-- On the 5 x 18 grid `_ringSpokeToIndex` never reaches its `default:`
branch and its value is the sentinel or below 50. -/
theorem inner_ringSpokeToIndex_grid (ring spoke : Int) (hring : 0 ≤ ring ∧ ring < 5)
    (hspoke : 0 ≤ spoke ∧ spoke < 18) :
    ∃ value, _ringSpokeToIndex ring spoke = some value ∧
      (value = -1 ∨ (0 ≤ value ∧ value < 50)) := by
  obtain ⟨hr0, hr1⟩ := hring
  obtain ⟨hs0, hs1⟩ := hspoke
  interval_cases ring <;> interval_cases spoke <;> exact ⟨_, rfl, by decide⟩

/-- Off the grid `_ringSpokeToIndex` returns the sentinel. -/
theorem inner_ringSpokeToIndex_off_grid (ring spoke : Int)
    (h : ring < 0 ∨ ring ≥ 5 ∨ spoke < 0 ∨ spoke ≥ 18) :
    _ringSpokeToIndex ring spoke = some (-1) := by
  unfold _ringSpokeToIndex
  rw [if_pos (by simpa [RING_COUNT, SPOKE_COUNT] using h)]

/-- C1: for a ring in [0,5) and a spoke in [0,18), `ringSpokeToIndex` is
decided by the residue of the spoke modulo 4: residue 0 gives
`(spoke/4)*11 + ring`; residue 1 gives `(spoke/4)*11 + 5` on ring 4 and the
sentinel -1 on the other rings; residue 2 gives `(spoke/4)*11 + 6 + (4 - ring)`;
residue 3 gives -1 on every ring. -/
theorem ringSpokeToIndex_by_residue (ring spoke : Int) (hring : 0 ≤ ring ∧ ring < 5)
    (hspoke : 0 ≤ spoke ∧ spoke < 18) :
    (spoke % 4 = 0 → ringSpokeToIndex ring spoke = some (spoke / 4 * 11 + ring)) ∧
    (spoke % 4 = 1 →
      ringSpokeToIndex ring spoke = some (if ring = 4 then spoke / 4 * 11 + 5 else -1)) ∧
    (spoke % 4 = 2 → ringSpokeToIndex ring spoke = some (spoke / 4 * 11 + 6 + (4 - ring))) ∧
    (spoke % 4 = 3 → ringSpokeToIndex ring spoke = some (-1)) := by
  obtain ⟨hr0, hr1⟩ := hring
  obtain ⟨hs0, hs1⟩ := hspoke
  interval_cases ring <;> interval_cases spoke <;> decide

/-- The golden values of the test suite, one for each residue of the spoke,
are instances of `ringSpokeToIndex_by_residue`. -/
theorem ringSpokeToIndex_by_residue_witness :
    ringSpokeToIndex 0 0 = some 0 ∧ ringSpokeToIndex 4 1 = some 5 ∧
    ringSpokeToIndex 4 2 = some 6 ∧ ringSpokeToIndex 0 2 = some 10 ∧
    ringSpokeToIndex 0 4 = some 11 ∧ ringSpokeToIndex 2 8 = some 24 ∧
    ringSpokeToIndex 3 1 = some (-1) ∧ ringSpokeToIndex 2 15 = some (-1) :=
  ⟨(ringSpokeToIndex_by_residue 0 0 (by decide) (by decide)).1 (by decide),
   (ringSpokeToIndex_by_residue 4 1 (by decide) (by decide)).2.1 (by decide),
   (ringSpokeToIndex_by_residue 4 2 (by decide) (by decide)).2.2.1 (by decide),
   (ringSpokeToIndex_by_residue 0 2 (by decide) (by decide)).2.2.1 (by decide),
   (ringSpokeToIndex_by_residue 0 4 (by decide) (by decide)).1 (by decide),
   (ringSpokeToIndex_by_residue 2 8 (by decide) (by decide)).1 (by decide),
   (ringSpokeToIndex_by_residue 3 1 (by decide) (by decide)).2.1 (by decide),
   (ringSpokeToIndex_by_residue 2 15 (by decide) (by decide)).2.2.2 (by decide)⟩

/-- C2: for all integers ring and spoke with ring < 0 or ring >= 5 or
spoke < 0 or spoke >= 18, `ringSpokeToIndex` returns the sentinel -1: no
assertion fails and the result is -1. -/
theorem ringSpokeToIndex_out_of_range (ring spoke : Int)
    (h : ring < 0 ∨ ring ≥ 5 ∨ spoke < 0 ∨ spoke ≥ 18) :
    ringSpokeToIndex ring spoke = some (-1) := by
  unfold ringSpokeToIndex
  rw [inner_ringSpokeToIndex_off_grid ring spoke h]
  rfl

/-- The out-of-bounds cases of the test suite, and inputs at the ends of the
32-bit `int` range, are instances of `ringSpokeToIndex_out_of_range`. -/
theorem ringSpokeToIndex_out_of_range_witness :
    ringSpokeToIndex (-1) 0 = some (-1) ∧ ringSpokeToIndex 5 0 = some (-1) ∧
    ringSpokeToIndex 0 (-1) = some (-1) ∧ ringSpokeToIndex 0 18 = some (-1) ∧
    ringSpokeToIndex (-2147483648) 2147483647 = some (-1) :=
  ⟨ringSpokeToIndex_out_of_range (-1) 0 (by decide),
   ringSpokeToIndex_out_of_range 5 0 (by decide),
   ringSpokeToIndex_out_of_range 0 (-1) (by decide),
   ringSpokeToIndex_out_of_range 0 18 (by decide),
   ringSpokeToIndex_out_of_range (-2147483648) 2147483647 (by decide)⟩

/-- C3: for all integers ring and spoke, `_ringSpokeToIndex` does not end in
its `default:` branch (`assert(false)`), the value it computes is the sentinel
-1 or lies in [0,50), and so `assert(value < 50)` holds and `ringSpokeToIndex`
returns that value. -/
theorem ringSpokeToIndex_value_bound (ring spoke : Int) :
    _ringSpokeToIndex ring spoke ≠ none ∧
    ∃ value, _ringSpokeToIndex ring spoke = some value ∧
      (value = -1 ∨ (0 ≤ value ∧ value < 50)) ∧
      ringSpokeToIndex ring spoke = some value := by
  have key : ∃ value, _ringSpokeToIndex ring spoke = some value ∧
      (value = -1 ∨ (0 ≤ value ∧ value < 50)) := by
    by_cases h : ring < 0 ∨ ring ≥ 5 ∨ spoke < 0 ∨ spoke ≥ 18
    · exact ⟨-1, inner_ringSpokeToIndex_off_grid ring spoke h, Or.inl rfl⟩
    · exact inner_ringSpokeToIndex_grid ring spoke ⟨by omega, by omega⟩ ⟨by omega, by omega⟩
  obtain ⟨value, hv, hb⟩ := key
  refine ⟨by simp [hv], value, hv, hb, ?_⟩
  have hlt : value < 50 := by omega
  simp [ringSpokeToIndex, hv, hlt]

/-! ## The LED sink: theorems -/

/-- The function `setLed` draws exactly on the cells of the simulator's wiring
rule: there it sets the draw colour and adds one fill, elsewhere it returns
the surface as it was. -/
theorem setLed_eq (layout : PolarLayout) (ring spoke : Int) (red green blue : Nat)
    (renderer : Renderer) :
    setLed layout ring spoke red green blue renderer =
      if simulatorWired ring spoke = true then
        { drawColor := { r := red, g := green, b := blue, a := 255 }
          fills := renderer.fills ++ [ledFill layout ring spoke red green blue] }
      else renderer := by
  unfold setLed simulatorWired
  by_cases hs : spoke ≥ 0 ∧ spoke < SPOKE_COUNT
  · by_cases hr : ring ≥ 0 ∧ ring < RING_COUNT
    · have h2 : Int.tmod spoke 2 = spoke % 2 := Int.tmod_eq_emod hs.1 (by decide)
      have h4 : Int.tmod spoke 4 = spoke % 4 := Int.tmod_eq_emod hs.1 (by decide)
      rw [if_pos hs, if_pos hr, h2, h4]
      simp only [RING_COUNT, SPOKE_COUNT] at hs hr ⊢
      by_cases ha : ring ≠ 5 - 1 ∧ spoke % 2 = 1
      · rw [if_pos ha, if_neg]
        simp only [decide_eq_true_eq]
        omega
      · rw [if_neg ha]
        by_cases hb : ring = 5 - 1 ∧ spoke % 4 = 3
        · rw [if_pos hb, if_neg]
          simp only [decide_eq_true_eq]
          omega
        · rw [if_neg hb, if_pos]
          · rfl
          · simp only [decide_eq_true_eq]
            omega
    · rw [if_pos hs, if_neg hr, if_neg]
      simp only [RING_COUNT, SPOKE_COUNT] at hs hr
      simp only [decide_eq_true_eq]
      omega
  · rw [if_neg hs, if_neg]
    simp only [RING_COUNT, SPOKE_COUNT] at hs
    simp only [decide_eq_true_eq]
    omega

/-- C4: with the display surface as explicit state, `setLed` returns the
surface unchanged when (ring, spoke) is outside [0,5) x [0,18), when ring < 4
and the spoke is odd, and when ring = 4 and spoke mod 4 = 3; in every other
case it adds exactly one fill to the surface, of the rectangle of the cell and
with exactly the colour (red, green, blue) it was given. -/
theorem setLed_frame (layout : PolarLayout) (ring spoke : Int) (red green blue : Nat)
    (renderer : Renderer) :
    ((ring < 0 ∨ ring ≥ 5 ∨ spoke < 0 ∨ spoke ≥ 18) →
      setLed layout ring spoke red green blue renderer = renderer) ∧
    ((ring < 4 ∧ spoke % 2 = 1) →
      setLed layout ring spoke red green blue renderer = renderer) ∧
    ((ring = 4 ∧ spoke % 4 = 3) →
      setLed layout ring spoke red green blue renderer = renderer) ∧
    (¬ (ring < 0 ∨ ring ≥ 5 ∨ spoke < 0 ∨ spoke ≥ 18) → ¬ (ring < 4 ∧ spoke % 2 = 1) →
      ¬ (ring = 4 ∧ spoke % 4 = 3) →
      (setLed layout ring spoke red green blue renderer).fills =
        renderer.fills ++
          [(ledRectangle layout ring spoke, { r := red, g := green, b := blue, a := 255 })]) := by
  rw [setLed_eq]
  refine ⟨fun h => ?_, fun h => ?_, fun h => ?_, fun h1 h2 h3 => ?_⟩
  · rw [if_neg]
    simp only [simulatorWired, decide_eq_true_eq]
    omega
  · rw [if_neg]
    simp only [simulatorWired, decide_eq_true_eq]
    omega
  · rw [if_neg]
    simp only [simulatorWired, decide_eq_true_eq]
    omega
  · rw [if_pos]
    · rfl
    · simp only [simulatorWired, decide_eq_true_eq]
      omega

/-- Instances of `setLed_frame` on an empty surface: a cell off the grid, an
odd spoke of an inner ring, spoke 7 of the outer ring, and the drawn cell
(4, 1). -/
theorem setLed_frame_witness :
    setLed ⟨fun _ _ => 0, fun _ _ => 0⟩ 5 0 10 20 30 ⟨⟨0, 0, 0, 0⟩, []⟩ = ⟨⟨0, 0, 0, 0⟩, []⟩ ∧
    setLed ⟨fun _ _ => 0, fun _ _ => 0⟩ 1 3 10 20 30 ⟨⟨0, 0, 0, 0⟩, []⟩ = ⟨⟨0, 0, 0, 0⟩, []⟩ ∧
    setLed ⟨fun _ _ => 0, fun _ _ => 0⟩ 4 7 10 20 30 ⟨⟨0, 0, 0, 0⟩, []⟩ = ⟨⟨0, 0, 0, 0⟩, []⟩ ∧
    (setLed ⟨fun _ _ => 0, fun _ _ => 0⟩ 4 1 10 20 30 ⟨⟨0, 0, 0, 0⟩, []⟩).fills =
      [] ++ [(ledRectangle ⟨fun _ _ => 0, fun _ _ => 0⟩ 4 1, ⟨10, 20, 30, 255⟩)] :=
  ⟨(setLed_frame ⟨fun _ _ => 0, fun _ _ => 0⟩ 5 0 10 20 30 ⟨⟨0, 0, 0, 0⟩, []⟩).1 (by decide),
   (setLed_frame ⟨fun _ _ => 0, fun _ _ => 0⟩ 1 3 10 20 30 ⟨⟨0, 0, 0, 0⟩, []⟩).2.1 (by decide),
   (setLed_frame ⟨fun _ _ => 0, fun _ _ => 0⟩ 4 7 10 20 30 ⟨⟨0, 0, 0, 0⟩, []⟩).2.2.1 (by decide),
   (setLed_frame ⟨fun _ _ => 0, fun _ _ => 0⟩ 4 1 10 20 30 ⟨⟨0, 0, 0, 0⟩, []⟩).2.2.2
     (by decide) (by decide) (by decide)⟩

/-! ## The approximate sine: theorems -/

/-- The function `sin8` in terms of the sum `mx + b`. -/
theorem sin8_eq_of_amplitude (theta : Nat) :
    sin8 theta =
      toUInt8 (toInt8 ((if theta &&& 0x80 ≠ 0 then toInt8 (-(toInt8 (sin8Amplitude theta)))
        else toInt8 (sin8Amplitude theta)) + 128)) := by
  rfl

/-- The values of `sin8` at two arguments half a period apart add up to 256. -/
theorem sin8_add_half_period : ∀ theta, theta < 256 →
    sin8 ((128 + theta) % 256) + sin8 theta = 256 := by
  set_option maxRecDepth 100000 in decide

/-- C5, as stated, fails at theta = 0: `sin8 128` is 128, and not
`255 - sin8 0 = 127`. -/
theorem sin8_half_period_255_fails :
    (sin8 ((128 + 0) % 256) : Int) ≠ 255 - (sin8 0 : Int) := by
  decide

/-- C5 (amended): for every theta in [0,255],
`sin8 ((128 + theta) mod 256) = 256 - sin8 theta`. -/
theorem sin8_half_period (theta : Nat) (h : theta < 256) :
    (sin8 ((128 + theta) % 256) : Int) = 256 - (sin8 theta : Int) := by
  have := sin8_add_half_period theta h
  omega

/-- An instance of `sin8_half_period`, at theta = 64 where `sin8` is 255. -/
theorem sin8_half_period_witness :
    64 < 256 ∧ (sin8 ((128 + 64) % 256) : Int) = 256 - (sin8 64 : Int) :=
  ⟨by decide, sin8_half_period 64 (by decide)⟩

/-- C6: `sin8` is monotonic on each quarter period: for consecutive theta and
theta + 1 inside [0,63] and inside [192,255] it does not decrease, inside
[64,127] and inside [128,191] it does not increase. -/
theorem sin8_monotone_on_quarters (theta : Nat) :
    (theta + 1 ≤ 63 → sin8 theta ≤ sin8 (theta + 1)) ∧
    (192 ≤ theta ∧ theta + 1 ≤ 255 → sin8 theta ≤ sin8 (theta + 1)) ∧
    (64 ≤ theta ∧ theta + 1 ≤ 127 → sin8 (theta + 1) ≤ sin8 theta) ∧
    (128 ≤ theta ∧ theta + 1 ≤ 191 → sin8 (theta + 1) ≤ sin8 theta) := by
  have key : ∀ t, t < 255 →
      (t + 1 ≤ 63 → sin8 t ≤ sin8 (t + 1)) ∧
      (192 ≤ t ∧ t + 1 ≤ 255 → sin8 t ≤ sin8 (t + 1)) ∧
      (64 ≤ t ∧ t + 1 ≤ 127 → sin8 (t + 1) ≤ sin8 t) ∧
      (128 ≤ t ∧ t + 1 ≤ 191 → sin8 (t + 1) ≤ sin8 t) := by
    set_option maxRecDepth 100000 in decide
  by_cases h : theta < 255
  · exact key theta h
  · exact ⟨fun h1 => by omega, fun h1 => by omega, fun h1 => by omega, fun h1 => by omega⟩

/-- Instances of `sin8_monotone_on_quarters` across a section boundary of the
table in each quarter. -/
theorem sin8_monotone_on_quarters_witness :
    sin8 15 ≤ sin8 16 ∧ sin8 207 ≤ sin8 208 ∧ sin8 80 ≤ sin8 79 ∧ sin8 144 ≤ sin8 143 :=
  ⟨(sin8_monotone_on_quarters 15).1 (by decide),
   (sin8_monotone_on_quarters 207).2.1 (by decide),
   (sin8_monotone_on_quarters 79).2.2.1 (by decide),
   (sin8_monotone_on_quarters 143).2.2.2 (by decide)⟩

/-- C7: `sin8` has exact quarter-wave mirror symmetry: for every k with
0 <= k <= 64, `sin8 (64 + k) = sin8 (64 - k)`, and for every k with
0 <= k <= 63, `sin8 (192 + k) = sin8 (192 - k)`. -/
theorem sin8_quarter_mirror (k : Nat) :
    (k ≤ 64 → sin8 (64 + k) = sin8 (64 - k)) ∧
    (k ≤ 63 → sin8 (192 + k) = sin8 (192 - k)) := by
  have key : ∀ j, j < 65 →
      (j ≤ 64 → sin8 (64 + j) = sin8 (64 - j)) ∧
      (j ≤ 63 → sin8 (192 + j) = sin8 (192 - j)) := by
    set_option maxRecDepth 100000 in decide
  by_cases h : k < 65
  · exact key k h
  · exact ⟨fun h1 => by omega, fun h1 => by omega⟩

/-- Instances of `sin8_quarter_mirror` at the section boundary k = 16 of the
table and at the ends of the two ranges. -/
theorem sin8_quarter_mirror_witness :
    sin8 (64 + 16) = sin8 (64 - 16) ∧ sin8 (64 + 64) = sin8 (64 - 64) ∧
    sin8 (192 + 16) = sin8 (192 - 16) ∧ sin8 (192 + 63) = sin8 (192 - 63) :=
  ⟨(sin8_quarter_mirror 16).1 (by decide), (sin8_quarter_mirror 64).1 (by decide),
   (sin8_quarter_mirror 16).2 (by decide), (sin8_quarter_mirror 63).2 (by decide)⟩

/-- C8: `sin8` has amplitude 127 about the midpoint 128. At the four quarter
points it is 128, 255, 128 and 1, which is `128 + 127 * sin (2 * pi * theta / 256)`
there; for every theta in [0,255] it lies in [1,255], it is 255 only at
theta = 64 and 1 only at theta = 192, and the sum `mx + b` is at most 127, so
that storing it into the `int8_t` variable `y` does not change it: the result
is 128 plus that sum on the first half period and 128 minus it on the
second. -/
theorem sin8_amplitude :
    (sin8 0 = 128 ∧ sin8 64 = 255 ∧ sin8 128 = 128 ∧ sin8 192 = 1) ∧
    ((sin8 0 : ℝ) = 128 + 127 * Real.sin (2 * Real.pi * 0 / 256) ∧
     (sin8 64 : ℝ) = 128 + 127 * Real.sin (2 * Real.pi * 64 / 256) ∧
     (sin8 128 : ℝ) = 128 + 127 * Real.sin (2 * Real.pi * 128 / 256) ∧
     (sin8 192 : ℝ) = 128 + 127 * Real.sin (2 * Real.pi * 192 / 256)) ∧
    (∀ theta, theta < 256 →
      1 ≤ sin8 theta ∧ sin8 theta ≤ 255 ∧
      (sin8 theta = 255 ↔ theta = 64) ∧ (sin8 theta = 1 ↔ theta = 192) ∧
      sin8Amplitude theta ≤ 127 ∧
      toInt8 (sin8Amplitude theta) = sin8Amplitude theta ∧
      (theta < 128 → sin8 theta = 128 + sin8Amplitude theta) ∧
      (128 ≤ theta → sin8 theta + sin8Amplitude theta = 128)) := by
  have h0 : sin8 0 = 128 := by decide
  have h64 : sin8 64 = 255 := by decide
  have h128 : sin8 128 = 128 := by decide
  have h192 : sin8 192 = 1 := by decide
  refine ⟨⟨h0, h64, h128, h192⟩, ⟨?_, ?_, ?_, ?_⟩, ?_⟩
  · rw [h0]
    have e : 2 * Real.pi * 0 / 256 = 0 := by ring
    rw [e, Real.sin_zero]
    norm_num
  · rw [h64]
    have e : 2 * Real.pi * 64 / 256 = Real.pi / 2 := by ring
    rw [e, Real.sin_pi_div_two]
    norm_num
  · rw [h128]
    have e : 2 * Real.pi * 128 / 256 = Real.pi := by ring
    rw [e, Real.sin_pi]
    norm_num
  · rw [h192]
    have e : 2 * Real.pi * 192 / 256 = Real.pi + Real.pi / 2 := by ring
    rw [e, Real.sin_add_pi_div_two, Real.cos_pi]
    norm_num
  · set_option maxRecDepth 100000 in decide

/-- Instances of `sin8_amplitude` at the maximum, the minimum and an ordinary
argument. -/
theorem sin8_amplitude_witness :
    (sin8 64 = 255 ↔ 64 = 64) ∧ (sin8 192 = 1 ↔ 192 = 192) ∧
    (1 ≤ sin8 200 ∧ sin8 200 ≤ 255) ∧ sin8Amplitude 64 ≤ 127 :=
  ⟨(sin8_amplitude.2.2 64 (by decide)).2.2.1,
   (sin8_amplitude.2.2 192 (by decide)).2.2.2.1,
   ⟨(sin8_amplitude.2.2 200 (by decide)).1, (sin8_amplitude.2.2 200 (by decide)).2.1⟩,
   (sin8_amplitude.2.2 64 (by decide)).2.2.2.2.1⟩

/-! ## Colour conversion: theorems -/

/-- C9: for every hue and every value, `hsvToRgb hue 0 value` has
red = green = blue = value. -/
theorem hsvToRgb_saturation_zero (hue value : Nat) :
    hsvToRgb hue 0 value = { red := value, green := value, blue := value } := by
  rfl

/-! ## Animations: theorems -/

/-- The two nested loops over the rings and the spokes visit the cells of
`gridCells` in order. -/
theorem forLoop_grid {σ : Type} (f : Int → Int → σ → σ) (s : σ) :
    forLoop 0 RING_COUNT (fun ring s => forLoop 0 SPOKE_COUNT (fun spoke s => f ring spoke s) s) s =
      gridCells.foldl (fun acc cell => f cell.1 cell.2 acc) s := by
  rfl

/-- Calls of `setLed` with one colour over a list of cells add the fills of
the populated cells of the list, in order. -/
theorem foldl_setLed_fills (layout : PolarLayout) (red green blue : Nat)
    (cells : List (Int × Int)) (renderer : Renderer) :
    (cells.foldl (fun acc cell => setLed layout cell.1 cell.2 red green blue acc) renderer).fills =
      renderer.fills ++
        (cells.filter (fun cell => simulatorWired cell.1 cell.2)).map
          (fun cell => ledFill layout cell.1 cell.2 red green blue) := by
  induction cells generalizing renderer with
  | nil => simp
  | cons cell rest ih =>
    rw [List.foldl_cons, ih, setLed_eq]
    by_cases hw : simulatorWired cell.1 cell.2 = true
    · simp [hw, List.filter_cons]
    · simp [hw, List.filter_cons]

/-- The fills of one call of `lightAll`. -/
theorem lightAll_fills (layout : PolarLayout) (st : LightAllState) (renderer : Renderer) :
    (lightAll layout st renderer).2.2.fills =
      renderer.fills ++
        wiredCells.map (fun cell =>
          ledFill layout cell.1 cell.2 (hsvToRgb st.hue 255 255).red
            (hsvToRgb st.hue 255 255).green (hsvToRgb st.hue 255 255).blue) := by
  unfold lightAll
  simp only [setLedHue]
  rw [forLoop_grid (fun ring spoke renderer =>
    setLed layout ring spoke (hsvToRgb st.hue 255 255).red (hsvToRgb st.hue 255 255).green
      (hsvToRgb st.hue 255 255).blue renderer)]
  exact foldl_setLed_fills layout _ _ _ gridCells renderer

/-- The stored hue after `n` calls of `lightAll` from the fresh state. -/
theorem lightAllRun_hue (layout : PolarLayout) (renderer : Renderer) (n : Nat) :
    (lightAllRun layout renderer n).1.hue = n % 256 := by
  induction n with
  | zero => rfl
  | succ n ih =>
    show ((lightAllRun layout renderer n).1.hue + 1) % 256 = (n + 1) % 256
    rw [ih]
    omega

/-- The list `wiredCells` holds every populated cell, once. -/
theorem wiredCells_complete :
    wiredCells.Nodup ∧ wiredCells.length = 50 ∧
    ∀ ring spoke : Int, (ring, spoke) ∈ wiredCells ↔ simulatorWired ring spoke = true := by
  refine ⟨by decide, by decide, fun ring spoke => ⟨fun h => ?_, fun h => ?_⟩⟩
  · exact (List.mem_filter.mp h).2
  · have hb : 0 ≤ ring ∧ ring < 5 ∧ 0 ≤ spoke ∧ spoke < 18 := by
      simp only [simulatorWired, decide_eq_true_eq] at h
      omega
    obtain ⟨h1, h2, h3, h4⟩ := hb
    interval_cases ring <;> interval_cases spoke <;> revert h <;> decide

/-- C10: for every n, the (n+1)-th call of `lightAll` from its fresh state
finds the stored hue `n mod 256`; on whatever surface it is made, it returns
the delay 30, leaves the stored hue `(n + 1) mod 256`, and adds to the surface
one fill for every populated cell of the 5 x 18 grid and no other, each with
the colour `hsvToRgb (n mod 256) 255 255`; the hues used by two consecutive
calls differ by 1 modulo 256. -/
theorem lightAll_nth_call (layout : PolarLayout) (renderer surface : Renderer) (n : Nat) :
    (lightAllRun layout renderer n).1.hue = n % 256 ∧
    (lightAll layout (lightAllRun layout renderer n).1 surface).1.delay_ms = 30 ∧
    (lightAll layout (lightAllRun layout renderer n).1 surface).2.1.hue = (n + 1) % 256 ∧
    (lightAll layout (lightAllRun layout renderer n).1 surface).2.2.fills =
      surface.fills ++
        wiredCells.map (fun cell =>
          (ledRectangle layout cell.1 cell.2,
            { r := (hsvToRgb (n % 256) 255 255).red
              g := (hsvToRgb (n % 256) 255 255).green
              b := (hsvToRgb (n % 256) 255 255).blue
              a := 255 })) ∧
    (wiredCells.Nodup ∧
      ∀ ring spoke : Int, (ring, spoke) ∈ wiredCells ↔
        (0 ≤ ring ∧ ring < 5 ∧ 0 ≤ spoke ∧ spoke < 18 ∧
          ((ring < 4 ∧ spoke % 2 = 0) ∨ (ring = 4 ∧ spoke % 4 ≠ 3)))) ∧
    (lightAllRun layout renderer (n + 1)).2 =
      (lightAll layout (lightAllRun layout renderer n).1 (lightAllRun layout renderer n).2).2.2 ∧
    (lightAllRun layout renderer (n + 1)).1.hue =
      ((lightAllRun layout renderer n).1.hue + 1) % 256 := by
  have hhue := lightAllRun_hue layout renderer n
  refine ⟨hhue, rfl, ?_, ?_, ⟨wiredCells_complete.1, fun ring spoke => ?_⟩, rfl, rfl⟩
  · show ((lightAllRun layout renderer n).1.hue + 1) % 256 = (n + 1) % 256
    rw [hhue]
    omega
  · rw [lightAll_fills, hhue]
    rfl
  · rw [wiredCells_complete.2.2 ring spoke]
    simp only [simulatorWired, decide_eq_true_eq]

/-! ## Wiring rules: theorems -/

/-- C14, as stated, fails for the group of spokes 0 .. 3: two of them (0 and
2), not three, are wired on all five rings. -/
theorem fully_wired_spokes_not_three :
    (spokesWiredExactlyOn [0, 1, 2, 3, 4] 0).length ≠ 3 := by
  decide

/-- C14 (amended): in every group of four consecutive spokes 4k .. 4k+3
(k = 0..3), two spokes (4k and 4k+2) are wired on all five rings, one spoke
(4k+1) is wired only on the outermost ring, and one spoke (4k+3) is wired on no
ring. -/
theorem wiring_of_spoke_groups (k : Int) (hk : 0 ≤ k ∧ k ≤ 3) :
    (∀ ring : Int, 0 ≤ ring ∧ ring < 5 →
      ringSpokeToIndex ring (4 * k) ≠ some (-1) ∧
      (ringSpokeToIndex ring (4 * k + 1) ≠ some (-1) ↔ ring = 4) ∧
      ringSpokeToIndex ring (4 * k + 2) ≠ some (-1) ∧
      ringSpokeToIndex ring (4 * k + 3) = some (-1)) ∧
    spokesWiredExactlyOn [0, 1, 2, 3, 4] k = [4 * k, 4 * k + 2] ∧
    spokesWiredExactlyOn [4] k = [4 * k + 1] ∧
    spokesWiredExactlyOn [] k = [4 * k + 3] := by
  obtain ⟨h0, h3⟩ := hk
  refine ⟨fun ring hring => ?_, ?_, ?_, ?_⟩
  · obtain ⟨hr0, hr4⟩ := hring
    interval_cases k <;> interval_cases ring <;> decide
  · interval_cases k <;> decide
  · interval_cases k <;> decide
  · interval_cases k <;> decide

/-- An instance of `wiring_of_spoke_groups`: the group of spokes 8 .. 11. -/
theorem wiring_of_spoke_groups_witness :
    spokesWiredExactlyOn [0, 1, 2, 3, 4] 2 = [4 * 2, 4 * 2 + 2] ∧
    spokesWiredExactlyOn [4] 2 = [4 * 2 + 1] ∧
    spokesWiredExactlyOn [] 2 = [4 * 2 + 3] :=
  (wiring_of_spoke_groups 2 (by decide)).2

/-- On every cell the simulator's wiring rule and the hardware-index rule
agree. -/
theorem simulatorWired_eq_indexWired (ring spoke : Int) :
    simulatorWired ring spoke = indexWired ring spoke := by
  by_cases h : ring < 0 ∨ ring ≥ 5 ∨ spoke < 0 ∨ spoke ≥ 18
  · have h1 : indexWired ring spoke = false := by
      simp [indexWired, ringSpokeToIndex, inner_ringSpokeToIndex_off_grid ring spoke h]
    have h2 : simulatorWired ring spoke = false := by
      simp only [simulatorWired, decide_eq_false_iff_not]
      omega
    rw [h1, h2]
  · have hr0 : 0 ≤ ring := by omega
    have hr1 : ring < 5 := by omega
    have hs0 : 0 ≤ spoke := by omega
    have hs1 : spoke < 18 := by omega
    interval_cases ring <;> interval_cases spoke <;> decide

/-- C20: the simulator wiring rule and the hardware-index wiring rule are the
same predicate: for all integers ring and spoke, all colours and every
surface, `setLed` changes the surface (by adding one fill) if and only if
`ringSpokeToIndex` is not the sentinel -1. -/
theorem setLed_draws_iff_index_wired (layout : PolarLayout) (ring spoke : Int)
    (red green blue : Nat) (renderer : Renderer) :
    (setLed layout ring spoke red green blue renderer ≠ renderer ↔
      ringSpokeToIndex ring spoke ≠ some (-1)) ∧
    ((setLed layout ring spoke red green blue renderer).fills.length =
        renderer.fills.length + 1 ↔
      ringSpokeToIndex ring spoke ≠ some (-1)) := by
  have hw : simulatorWired ring spoke = true ↔ ringSpokeToIndex ring spoke ≠ some (-1) := by
    rw [simulatorWired_eq_indexWired]
    simp [indexWired]
  rw [setLed_eq, ← hw]
  by_cases h : simulatorWired ring spoke = true
  · rw [if_pos h]
    refine ⟨⟨fun _ => h, fun _ heq => ?_⟩, ⟨fun _ => h, fun _ => by simp⟩⟩
    have := congrArg (fun r => r.fills.length) heq
    simp at this
  · rw [if_neg h]
    exact ⟨⟨fun hne => absurd rfl hne, fun hh => absurd hh h⟩,
      ⟨fun hlen => by omega, fun hh => absurd hh h⟩⟩

/-! ## The fire colour: theorems -/

/-- The function `setLedFire` is `setLed` with the colour `setLedFireColour`. -/
theorem setLedFire_eq (layout : PolarLayout) (ring spoke : Int) (v : Nat) (renderer : Renderer) :
    setLedFire layout ring spoke v renderer =
      setLed layout ring spoke (setLedFireColour v).red (setLedFireColour v).green
        (setLedFireColour v).blue renderer := by
  rfl

/-- C15, as stated, fails at v = 255: green is `(255 - 128) * 2 = 254`, not
255. -/
theorem setLedFire_green_255_fails : (setLedFireColour 255).green ≠ 255 := by
  decide

/-- The fire colour of every brightness byte, channel by channel. -/
theorem setLedFireColour_channels (v : Nat) (hv : v < 256) :
    (setLedFireColour v).red = (if v < 128 then v * 2 else 255) ∧
    (setLedFireColour v).green = (if v ≥ 128 then (v - 128) * 2 else 0) ∧
    (setLedFireColour v).blue = 0 := by
  refine ⟨?_, ?_, rfl⟩
  · simp only [setLedFireColour, toUInt8]
    split_ifs <;> omega
  · simp only [setLedFireColour, toUInt8]
    split_ifs <;> omega

/-- C15 (amended): for every brightness byte v, the colour `setLedFire` passes
to `setLed` has blue = 0; red is non-decreasing in v, equals 0 at v = 0 and
equals 255 for every v >= 128; green equals 0 for every v <= 128, is
non-decreasing in v and equals 254, its largest value, at v = 255. -/
theorem setLedFire_colour (v : Nat) (hv : v < 256) :
    (∀ ring spoke renderer layout, setLedFire layout ring spoke v renderer =
      setLed layout ring spoke (setLedFireColour v).red (setLedFireColour v).green 0 renderer) ∧
    (setLedFireColour v).blue = 0 ∧
    (∀ w, v ≤ w → w < 256 → (setLedFireColour v).red ≤ (setLedFireColour w).red) ∧
    (setLedFireColour 0).red = 0 ∧
    (v ≥ 128 → (setLedFireColour v).red = 255) ∧
    (v ≤ 128 → (setLedFireColour v).green = 0) ∧
    (∀ w, v ≤ w → w < 256 → (setLedFireColour v).green ≤ (setLedFireColour w).green) ∧
    (setLedFireColour 255).green = 254 ∧
    (setLedFireColour v).green ≤ 254 := by
  obtain ⟨hr, hg, hb⟩ := setLedFireColour_channels v hv
  refine ⟨fun _ _ _ _ => rfl, hb, fun w hvw hw => ?_, by decide, fun h => ?_, fun h => ?_,
    fun w hvw hw => ?_, by decide, ?_⟩
  · obtain ⟨hr2, _, _⟩ := setLedFireColour_channels w hw
    rw [hr, hr2]
    split_ifs <;> omega
  · rw [hr]
    split_ifs <;> omega
  · rw [hg]
    split_ifs <;> omega
  · obtain ⟨_, hg2, _⟩ := setLedFireColour_channels w hw
    rw [hg, hg2]
    split_ifs <;> omega
  · rw [hg]
    split_ifs <;> omega

/-- Instances of `setLedFire_colour` at v = 200: red is 255 and green is below
the green of v = 255. -/
theorem setLedFire_colour_witness :
    200 < 256 ∧ (setLedFireColour 200).red = 255 ∧
    (setLedFireColour 200).green ≤ (setLedFireColour 255).green :=
  ⟨by decide, (setLedFire_colour 200 (by decide)).2.2.2.2.1 (by decide),
   (setLedFire_colour 200 (by decide)).2.2.2.2.2.2.1 255 (by decide) (by decide)⟩

/-! ## The animation loop: theorems -/

/-- C12: for every animation index i in [0,18), the step to the next animation
yields (i + 1) mod 18 and the step to the previous one yields (i - 1) mod 18
(17 when i = 0); both stay inside [0,18), and each undoes the other. -/
theorem animation_index_steps (i : Int) (hi : 0 ≤ i ∧ i < 18) :
    nextAnimationIndex i = (i + 1) % 18 ∧
    previousAnimationIndex i = (i - 1) % 18 ∧
    (i = 0 → previousAnimationIndex i = 17) ∧
    (0 ≤ nextAnimationIndex i ∧ nextAnimationIndex i < 18) ∧
    (0 ≤ previousAnimationIndex i ∧ previousAnimationIndex i < 18) ∧
    previousAnimationIndex (nextAnimationIndex i) = i ∧
    nextAnimationIndex (previousAnimationIndex i) = i := by
  obtain ⟨h0, h18⟩ := hi
  interval_cases i <;> decide

/-- Instances of `animation_index_steps` at the two ends of the table. -/
theorem animation_index_steps_witness :
    nextAnimationIndex 17 = (17 + 1) % 18 ∧ previousAnimationIndex 0 = 17 ∧
    previousAnimationIndex (nextAnimationIndex 17) = 17 :=
  ⟨(animation_index_steps 17 (by decide)).1,
   (animation_index_steps 0 (by decide)).2.2.1 rfl,
   (animation_index_steps 17 (by decide)).2.2.2.2.2.1⟩


/-- C13, as stated, fails: with `lightAll` (index 14) active and 14 ms of its
delay left, a next event selects `spinSingle`, whose call reports the delay 25,
and the remaining delay is still 14. -/
theorem navigation_resets_budget_fails :
    (handleEvent resultsOnly
      { shouldClose := false, animationIndex := 14, delay_ms := 14, animation_ms := 16,
        title := "lightAll", world := () } Event.next).delay_ms ≠
      (resultsOnly (nextAnimationIndex 14) ()).1.delay_ms := by
  decide

/-- C13 (amended): when the loop handles a next or previous navigation event,
it calls the newly selected animation at once, on the world as it is, and sets
the window title to the name this call reports; the remaining delay is not
reset: after the event it is what it was before, whatever delay the call
reports. -/
theorem navigation_invokes_and_keeps_budget {ω : Type}
    (animations : Int → ω → AnimationResult × ω) (s : LoopState ω) :
    ((handleEvent animations s Event.next).animationIndex = nextAnimationIndex s.animationIndex ∧
      (handleEvent animations s Event.next).world =
        (animations (nextAnimationIndex s.animationIndex) s.world).2 ∧
      (handleEvent animations s Event.next).title =
        (animations (nextAnimationIndex s.animationIndex) s.world).1.functionName ∧
      (handleEvent animations s Event.next).delay_ms = s.delay_ms) ∧
    ((handleEvent animations s Event.previous).animationIndex =
        previousAnimationIndex s.animationIndex ∧
      (handleEvent animations s Event.previous).world =
        (animations (previousAnimationIndex s.animationIndex) s.world).2 ∧
      (handleEvent animations s Event.previous).title =
        (animations (previousAnimationIndex s.animationIndex) s.world).1.functionName ∧
      (handleEvent animations s Event.previous).delay_ms = s.delay_ms) :=
  ⟨⟨rfl, rfl, rfl, rfl⟩, ⟨rfl, rfl, rfl, rfl⟩⟩


/-! ## The moving ball: theorems -/

/-- Inside the array `drawBall` lights the cell and stores 255. -/
theorem drawBall_in_grid (layout : PolarLayout) (ring spoke : Int) (hue : Nat)
    (brightness : Grid) (renderer : Renderer)
    (h : 0 ≤ ring ∧ ring < 5 ∧ 0 ≤ spoke ∧ spoke < 18) :
    drawBall layout ring spoke hue (some (brightness, renderer)) =
      some (brightness.write ring spoke 255, setLedHue layout ring spoke hue renderer) := by
  have h' : 0 ≤ ring ∧ ring < RING_COUNT ∧ 0 ≤ spoke ∧ spoke < SPOKE_COUNT := h
  simp only [drawBall, Grid.store, if_pos h']

/-- The loop of `drawFades` visits the cells of `gridCells` in order. -/
theorem drawFades_eq_foldl (layout : PolarLayout) (fade : Int) (hue : Nat) (brightness : Grid)
    (renderer : Renderer) :
    drawFades layout fade hue brightness renderer =
      gridCells.foldl (fun s cell =>
        (fadeCell fade s.1 cell.1 cell.2,
          setLed layout cell.1 cell.2
            (hsvToRgb hue 255 ((fadeCell fade s.1 cell.1 cell.2).read cell.1 cell.2)).red
            (hsvToRgb hue 255 ((fadeCell fade s.1 cell.1 cell.2).read cell.1 cell.2)).green
            (hsvToRgb hue 255 ((fadeCell fade s.1 cell.1 cell.2).read cell.1 cell.2)).blue s.2))
        (brightness, renderer) :=
  forLoop_grid (fun ring spoke (s : Grid × Renderer) =>
    (fadeCell fade s.1 ring spoke,
      setLed layout ring spoke
        (hsvToRgb hue 255 ((fadeCell fade s.1 ring spoke).read ring spoke)).red
        (hsvToRgb hue 255 ((fadeCell fade s.1 ring spoke).read ring spoke)).green
        (hsvToRgb hue 255 ((fadeCell fade s.1 ring spoke).read ring spoke)).blue s.2))
    (brightness, renderer)

/-- The loop of `drawFades` over a list of cells, split into the brightness
array with the list of calls of `setLed` on one side and the surface on the
other. -/
theorem foldl_fade_eq_log (layout : PolarLayout) (fade : Int) (hue : Nat)
    (cells : List (Int × Int)) (brightness : Grid) (calls : List ((Int × Int) × Rgb))
    (renderer : Renderer) :
    cells.foldl (fun s cell =>
        (fadeCell fade s.1 cell.1 cell.2,
          setLed layout cell.1 cell.2
            (hsvToRgb hue 255 ((fadeCell fade s.1 cell.1 cell.2).read cell.1 cell.2)).red
            (hsvToRgb hue 255 ((fadeCell fade s.1 cell.1 cell.2).read cell.1 cell.2)).green
            (hsvToRgb hue 255 ((fadeCell fade s.1 cell.1 cell.2).read cell.1 cell.2)).blue s.2))
        (brightness, setLedAll layout calls renderer) =
      ((drawFadesLog fade hue cells (brightness, calls)).1,
        setLedAll layout (drawFadesLog fade hue cells (brightness, calls)).2 renderer) := by
  induction cells generalizing brightness calls with
  | nil => rfl
  | cons cell rest ih =>
    simp only [List.foldl_cons, drawFadesLog]
    have h := ih (fadeCell fade brightness cell.1 cell.2)
      (calls ++ [(cell, hsvToRgb hue 255 ((fadeCell fade brightness cell.1 cell.2).read cell.1 cell.2))])
    simp only [setLedAll, List.foldl_append, List.foldl_cons, List.foldl_nil, drawFadesLog] at h
    exact h

/-- The function `drawFades` in terms of its list of calls of `setLed`. -/
theorem drawFades_eq_log (layout : PolarLayout) (fade : Int) (hue : Nat) (brightness : Grid)
    (renderer : Renderer) :
    drawFades layout fade hue brightness renderer =
      ((drawFadesLog fade hue gridCells (brightness, [])).1,
        setLedAll layout (drawFadesLog fade hue gridCells (brightness, [])).2 renderer) := by
  rw [drawFades_eq_foldl]
  exact foldl_fade_eq_log layout fade hue gridCells brightness [] renderer

/-- The fills that a list of calls of `setLed` adds: those of its populated
cells. -/
theorem setLedAll_fills (layout : PolarLayout) (calls : List ((Int × Int) × Rgb))
    (renderer : Renderer) :
    (setLedAll layout calls renderer).fills =
      renderer.fills ++
        (calls.filter (fun call => simulatorWired call.1.1 call.1.2)).map
          (fun call => ledFill layout call.1.1 call.1.2 call.2.red call.2.green call.2.blue) := by
  induction calls generalizing renderer with
  | nil => simp [setLedAll]
  | cons call rest ih =>
    simp only [setLedAll, List.foldl_cons] at ih ⊢
    rw [ih, setLed_eq]
    by_cases hw : simulatorWired call.1.1 call.1.2 = true
    · simp [hw, List.filter_cons]
    · simp [hw, List.filter_cons]

/-- On the all-zero brightness array and in hue 0, `drawFades` leaves the
array as it is and calls `setLed` with black on every cell. -/
theorem drawFadesLog_zero :
    drawFadesLog 5 0 gridCells (Grid.zero, []) =
      (Grid.zero, gridCells.map (fun cell => (cell, { red := 0, green := 0, blue := 0 }))) := by
  set_option maxRecDepth 1000000 in decide


/-- A loop of `drawBall` over cells that all lie inside the array does not
fail. -/
theorem foldl_drawBall_some (layout : PolarLayout) (hue : Nat) (cellOf : Nat → Int × Int)
    (ks : List Nat)
    (h : ∀ k ∈ ks, 0 ≤ (cellOf k).1 ∧ (cellOf k).1 < 5 ∧ 0 ≤ (cellOf k).2 ∧ (cellOf k).2 < 18)
    (s : Grid × Renderer) :
    ∃ s', ks.foldl (fun acc k => drawBall layout (cellOf k).1 (cellOf k).2 hue acc) (some s) =
      some s' := by
  induction ks generalizing s with
  | nil => exact ⟨s, rfl⟩
  | cons k rest ih =>
    rw [List.foldl_cons]
    have hk := drawBall_in_grid layout (cellOf k).1 (cellOf k).2 hue s.1 s.2
      (h k (List.mem_cons_self k rest))
    rw [Prod.mk.eta] at hk
    rw [hk]
    exact ih (fun j hj => h j (List.mem_cons_of_mem k hj)) _

/-- One call of `orbit` whose ball is inside the array: the new state and the
new surface. -/
theorem orbit_in_grid (layout : PolarLayout) (st : OrbitState) (renderer : Renderer)
    (h : 0 ≤ Int.tdiv st.position 16 ∧ Int.tdiv st.position 16 < 5 ∧
      0 ≤ st.currentSpoke ∧ st.currentSpoke < 18) :
    orbit layout st renderer =
      some ({ functionName := "orbit", delay_ms := 40 },
        { currentSpoke :=
            if st.position + st.speed < 0 then Int.tmod (st.currentSpoke + 9 + 1) 18
            else st.currentSpoke
          position := (orbitMotion (st.position, st.speed)).1
          speed := (orbitMotion (st.position, st.speed)).2
          hue := (st.hue + 1) % 256
          brightness :=
            (drawFades layout 5 st.hue st.brightness renderer).1.write
              (Int.tdiv st.position 16) st.currentSpoke 255 },
        setLedHue layout (Int.tdiv st.position 16) st.currentSpoke st.hue
          (drawFades layout 5 st.hue st.brightness renderer).2) := by
  have hb := drawBall_in_grid layout (Int.tdiv st.position 16) st.currentSpoke st.hue
    (drawFades layout 5 st.hue st.brightness renderer).1
    (drawFades layout 5 st.hue st.brightness renderer).2 h
  rw [Prod.mk.eta] at hb
  simp only [orbit, hb, orbitMotion]
  by_cases hneg : st.position + st.speed < 0
  · simp only [if_pos hneg]
    rfl
  · simp only [if_neg hneg]

/-- One call of `triadOrbits` whose ring index is inside the array: it does
not fail, and the new state. -/
theorem triadOrbits_in_grid (layout : PolarLayout) (st : OrbitState) (renderer : Renderer)
    (h : 0 ≤ Int.tdiv st.position 16 ∧ Int.tdiv st.position 16 < 5 ∧ 0 ≤ st.currentSpoke) :
    ∃ brightness surface, triadOrbits layout st renderer =
      some ({ functionName := "triadOrbits", delay_ms := 40 },
        { currentSpoke :=
            if st.position + st.speed < 0 then Int.tmod (st.currentSpoke + 2) 6
            else st.currentSpoke
          position := (orbitMotion (st.position, st.speed)).1
          speed := (orbitMotion (st.position, st.speed)).2
          hue :=
            if st.position + st.speed < 0 then ((st.hue + 50) % 256 + 1) % 256
            else (st.hue + 1) % 256
          brightness := brightness },
        surface) := by
  obtain ⟨s', hs'⟩ := foldl_drawBall_some layout st.hue
    (fun k => (Int.tdiv st.position 16, st.currentSpoke + 6 * (k : Int)))
    (List.range ((SPOKE_COUNT - st.currentSpoke + 6 - 1) / 6).toNat)
    (fun k hk => by
      have hk' := List.mem_range.mp hk
      simp only [SPOKE_COUNT] at hk'
      refine ⟨h.1, h.2.1, ?_, ?_⟩
      · show 0 ≤ st.currentSpoke + 6 * (k : Int)
        omega
      · show st.currentSpoke + 6 * (k : Int) < 18
        omega)
    (drawFades layout 10 st.hue st.brightness renderer)
  refine ⟨s'.1, s'.2, ?_⟩
  simp only [triadOrbits, forLoopStep, orbitMotion]
  simp only [] at hs'
  rw [hs']
  by_cases hneg : st.position + st.speed < 0
  · simp only [if_pos hneg]
  · simp only [if_neg hneg]

/-- One call of `pendulum` whose column index is inside the array: it does not
fail, and the new state. -/
theorem pendulum_in_grid (layout : PolarLayout) (st : PendulumState) (renderer : Renderer)
    (h : 0 ≤ Int.tdiv st.position 16 ∧ Int.tdiv st.position 16 < 18) :
    ∃ brightness surface, pendulum layout st renderer =
      some ({ functionName := "pendulum", delay_ms := 40 },
        { position := (pendulumMotion (st.position, st.speed)).1
          speed := (pendulumMotion (st.position, st.speed)).2
          hue := (st.hue + 1) % 256
          brightness := brightness },
        surface) := by
  obtain ⟨s', hs'⟩ := foldl_drawBall_some layout st.hue
    (fun k => (0 + (k : Int), Int.tdiv st.position 16))
    (List.range (RING_COUNT - 0).toNat)
    (fun k hk => by
      have hk' := List.mem_range.mp hk
      simp only [RING_COUNT] at hk'
      refine ⟨?_, ?_, h.1, h.2⟩
      · show 0 ≤ 0 + (k : Int)
        omega
      · show 0 + (k : Int) < 5
        omega)
    (drawFades layout 10 st.hue st.brightness renderer)
  refine ⟨s'.1, s'.2, ?_⟩
  simp only [pendulum, forLoop, pendulumMotion]
  simp only [] at hs'
  rw [hs']


/-- The list `orbitMotionStates` is closed under `orbitMotion`, which leads
into its tail, and all its ring indices are inside the array. -/
theorem orbitMotionStates_closed :
    ∀ p ∈ orbitMotionStates,
      orbitMotion p ∈ orbitMotionStates.tail ∧ 0 ≤ Int.tdiv p.1 16 ∧ Int.tdiv p.1 16 < 5 := by
  decide

/-- After the first call the position of the ball is in [0,78]. -/
theorem orbitMotionStates_tail_bounds :
    ∀ p ∈ orbitMotionStates.tail, 0 ≤ p.1 ∧ p.1 ≤ 78 := by
  decide

/-- Every iterate of `orbitMotion` from (-13, 13) is in `orbitMotionStates`,
and from the first one on in its tail. -/
theorem orbitMotion_iterate_mem (n : Nat) :
    orbitMotion^[n] (-13, 13) ∈ orbitMotionStates ∧
    (1 ≤ n → orbitMotion^[n] (-13, 13) ∈ orbitMotionStates.tail) := by
  induction n with
  | zero => exact ⟨by decide, fun h => absurd h (by decide)⟩
  | succ n ih =>
    rw [Function.iterate_succ_apply']
    have hmem := (orbitMotionStates_closed _ ih.1).1
    exact ⟨List.mem_of_mem_tail hmem, fun _ => hmem⟩

/-- After `n` calls of `orbit` from its fresh state: no call has failed, the
pair (position, speed) is the `n`-th iterate of `orbitMotion`, and
`currentSpoke` is an even spoke of the grid. -/
theorem orbit_run (layout : PolarLayout) (renderer : Renderer) (n : Nat) :
    ∃ st r, runFallible (orbit layout) (OrbitState.fresh, renderer) n = some (st, r) ∧
      (st.position, st.speed) = orbitMotion^[n] (-13, 13) ∧
      0 ≤ st.currentSpoke ∧ st.currentSpoke < 18 ∧ st.currentSpoke % 2 = 0 := by
  induction n with
  | zero => exact ⟨OrbitState.fresh, renderer, rfl, rfl, by decide, by decide, by decide⟩
  | succ n ih =>
    obtain ⟨st, r, hrun, hmot, hc0, hc1, hc2⟩ := ih
    have hmem := (orbitMotion_iterate_mem n).1
    rw [← hmot] at hmem
    have hb := (orbitMotionStates_closed _ hmem).2
    have hstep := orbit_in_grid layout st r ⟨hb.1, hb.2, hc0, hc1⟩
    have ht : Int.tmod (st.currentSpoke + 9 + 1) 18 = (st.currentSpoke + 9 + 1) % 18 :=
      Int.tmod_eq_emod (by omega) (by decide)
    refine ⟨_, _, by simp only [runFallible, hrun, hstep]; rfl, ?_, ?_⟩
    · rw [Function.iterate_succ_apply', ← hmot]
    · show 0 ≤ (if st.position + st.speed < 0 then Int.tmod (st.currentSpoke + 9 + 1) 18
          else st.currentSpoke) ∧
        (if st.position + st.speed < 0 then Int.tmod (st.currentSpoke + 9 + 1) 18
          else st.currentSpoke) < 18 ∧
        (if st.position + st.speed < 0 then Int.tmod (st.currentSpoke + 9 + 1) 18
          else st.currentSpoke) % 2 = 0
      rw [ht]
      split_ifs <;> omega

/-- After `n` calls of `triadOrbits` from its fresh state: no call has failed,
the pair (position, speed) is the `n`-th iterate of `orbitMotion`, and
`currentSpoke` is in [0,6). -/
theorem triadOrbits_run (layout : PolarLayout) (renderer : Renderer) (n : Nat) :
    ∃ st r, runFallible (triadOrbits layout) (OrbitState.fresh, renderer) n = some (st, r) ∧
      (st.position, st.speed) = orbitMotion^[n] (-13, 13) ∧
      0 ≤ st.currentSpoke ∧ st.currentSpoke < 6 := by
  induction n with
  | zero => exact ⟨OrbitState.fresh, renderer, rfl, rfl, by decide, by decide⟩
  | succ n ih =>
    obtain ⟨st, r, hrun, hmot, hc0, hc1⟩ := ih
    have hmem := (orbitMotion_iterate_mem n).1
    rw [← hmot] at hmem
    have hb := (orbitMotionStates_closed _ hmem).2
    obtain ⟨b', r', hstep⟩ := triadOrbits_in_grid layout st r ⟨hb.1, hb.2, hc0⟩
    have ht : Int.tmod (st.currentSpoke + 2) 6 = (st.currentSpoke + 2) % 6 :=
      Int.tmod_eq_emod (by omega) (by decide)
    refine ⟨_, _, by simp only [runFallible, hrun, hstep]; rfl, ?_, ?_⟩
    · rw [Function.iterate_succ_apply', ← hmot]
    · show 0 ≤ (if st.position + st.speed < 0 then Int.tmod (st.currentSpoke + 2) 6
          else st.currentSpoke) ∧
        (if st.position + st.speed < 0 then Int.tmod (st.currentSpoke + 2) 6
          else st.currentSpoke) < 6
      rw [ht]
      split_ifs <;> omega

/-- The motion of the pendulum has period 60. -/
theorem pendulumMotion_iterate_mod (n : Nat) :
    pendulumMotion^[n] (37, 0) = pendulumMotion^[n % 60] (37, 0) := by
  have h60 : pendulumMotion^[60] (37, 0) = (37, 0) := by decide
  have hq : ∀ q : Nat, pendulumMotion^[60 * q] (37, 0) = (37, 0) := by
    intro q
    induction q with
    | zero => rfl
    | succ q ihq =>
      rw [Nat.mul_succ, Function.iterate_add_apply, h60, ihq]
  conv_lhs => rw [← Nat.mod_add_div n 60]
  rw [Function.iterate_add_apply, hq]

/-- Within one period: the bounds of the motion of the pendulum, and the
start (37, 0) is met at the first step of the period only. -/
theorem pendulumMotion_period :
    ∀ k, k < 60 →
      37 ≤ (pendulumMotion^[k] (37, 0)).1 ∧ (pendulumMotion^[k] (37, 0)).1 ≤ 262 ∧
      -15 ≤ (pendulumMotion^[k] (37, 0)).2 ∧ (pendulumMotion^[k] (37, 0)).2 ≤ 15 ∧
      2 ≤ Int.tdiv (pendulumMotion^[k] (37, 0)).1 16 ∧
      Int.tdiv (pendulumMotion^[k] (37, 0)).1 16 ≤ 16 ∧
      (pendulumMotion^[k] (37, 0) = (37, 0) ↔ k = 0) := by
  set_option maxRecDepth 100000 in decide

/-- After `n` calls of `pendulum` from its fresh state: no call has failed and
the pair (position, speed) is the `n`-th iterate of `pendulumMotion`. -/
theorem pendulum_run (layout : PolarLayout) (renderer : Renderer) (n : Nat) :
    ∃ st r, runFallible (pendulum layout) (PendulumState.fresh, renderer) n = some (st, r) ∧
      (st.position, st.speed) = pendulumMotion^[n] (37, 0) := by
  induction n with
  | zero => exact ⟨PendulumState.fresh, renderer, rfl, rfl⟩
  | succ n ih =>
    obtain ⟨st, r, hrun, hmot⟩ := ih
    have hb := pendulumMotion_period (n % 60) (Nat.mod_lt n (by decide))
    rw [← pendulumMotion_iterate_mod, ← hmot] at hb
    dsimp only at hb
    obtain ⟨b', r', hstep⟩ := pendulum_in_grid layout st r ⟨by omega, by omega⟩
    refine ⟨_, _, by simp only [runFallible, hrun, hstep]; rfl, ?_⟩
    rw [Function.iterate_succ_apply', ← hmot]


/-- When every fill of a list has the colour `colour` and one of them is on
the rectangle `rectangle`, that rectangle shows `colour`. -/
theorem shownColour_of_uniform (fills : List (SDL_Rect × DrawColor)) (rectangle : SDL_Rect)
    (colour : DrawColor) (hall : ∀ fill ∈ fills, fill.2 = colour)
    (hex : ∃ fill ∈ fills, fill.1 = rectangle) :
    shownColour fills rectangle = some colour := by
  obtain ⟨fill, hmem, hrect⟩ := hex
  have hne : fills.filter (fun fill => fill.1 = rectangle) ≠ [] := by
    intro hnil
    have : fill ∈ fills.filter (fun fill => fill.1 = rectangle) :=
      List.mem_filter.mpr ⟨hmem, by simpa using hrect⟩
    rw [hnil] at this
    exact absurd this (List.not_mem_nil fill)
  unfold shownColour
  rw [List.getLast?_eq_getLast _ hne, Option.map_some']
  have hlast := List.getLast_mem hne
  rw [hall _ (List.mem_filter.mp hlast).1]

/-- C11: calling `orbit` once from its fresh state (position -13, speed 13,
hue 0, all-zero brightness array) on a surface without fills does not fail;
it fills every populated cell with black and then the cell (ring 0, spoke 0)
with the colour `hsvToRgb 0 255 255`, which is (255, 0, 0), so that (when the
rectangle of no other populated cell is that of (0, 0)) the surface shows that
colour on (0, 0) and black on every other populated cell; afterwards
`brightness[0][0] = 255` is the only non-zero entry of the array. The ring
index is `-13 / 16 = 0` by truncation toward zero; rounded down it would be
-1, outside the array. -/
theorem orbit_first_call (layout : PolarLayout) (drawColor : DrawColor) :
    ∃ st surface,
      orbit layout OrbitState.fresh { drawColor := drawColor, fills := [] } =
        some ({ functionName := "orbit", delay_ms := 40 }, st, surface) ∧
      surface.fills =
        wiredCells.map (fun cell => ledFill layout cell.1 cell.2 0 0 0) ++
          [ledFill layout 0 0 (hsvToRgb 0 255 255).red (hsvToRgb 0 255 255).green
            (hsvToRgb 0 255 255).blue] ∧
      hsvToRgb 0 255 255 = { red := 255, green := 0, blue := 0 } ∧
      ((∀ cell ∈ wiredCells, cell ≠ (0, 0) →
          ledRectangle layout cell.1 cell.2 ≠ ledRectangle layout 0 0) →
        shownColour surface.fills (ledRectangle layout 0 0) =
          some { r := 255, g := 0, b := 0, a := 255 } ∧
        ∀ cell ∈ wiredCells, cell ≠ (0, 0) →
          shownColour surface.fills (ledRectangle layout cell.1 cell.2) =
            some { r := 0, g := 0, b := 0, a := 255 }) ∧
      (st.brightness.read 0 0 = 255 ∧
        ∀ cell ∈ gridCells, cell ≠ (0, 0) → st.brightness.read cell.1 cell.2 = 0) ∧
      (st.currentSpoke = 0 ∧ st.position = 0 ∧ st.speed = 12 ∧ st.hue = 1) ∧
      (Int.tdiv OrbitState.fresh.position 16 = 0 ∧ OrbitState.fresh.position / 16 = -1 ∧
        ∀ s, drawBall layout (OrbitState.fresh.position / 16) 0 0 (some s) = none) := by
  have hstep := orbit_in_grid layout OrbitState.fresh { drawColor := drawColor, fills := [] }
    (by decide)
  have hlog := drawFades_eq_log layout 5 0 Grid.zero { drawColor := drawColor, fills := [] }
  rw [drawFadesLog_zero] at hlog
  have hfades1 : (drawFades layout 5 OrbitState.fresh.hue OrbitState.fresh.brightness
      { drawColor := drawColor, fills := [] }).1 = Grid.zero := by
    show (drawFades layout 5 0 Grid.zero { drawColor := drawColor, fills := [] }).1 = Grid.zero
    rw [hlog]
  have hfades2 : (drawFades layout 5 OrbitState.fresh.hue OrbitState.fresh.brightness
      { drawColor := drawColor, fills := [] }).2.fills =
      wiredCells.map (fun cell => ledFill layout cell.1 cell.2 0 0 0) := by
    show (drawFades layout 5 0 Grid.zero { drawColor := drawColor, fills := [] }).2.fills = _
    rw [hlog, setLedAll_fills]
    simp only [List.nil_append, List.filter_map, List.map_map, wiredCells]
    rfl
  have hfills : (setLedHue layout (Int.tdiv OrbitState.fresh.position 16)
      OrbitState.fresh.currentSpoke OrbitState.fresh.hue
      (drawFades layout 5 OrbitState.fresh.hue OrbitState.fresh.brightness
        { drawColor := drawColor, fills := [] }).2).fills =
      wiredCells.map (fun cell => ledFill layout cell.1 cell.2 0 0 0) ++
        [ledFill layout 0 0 (hsvToRgb 0 255 255).red (hsvToRgb 0 255 255).green
          (hsvToRgb 0 255 255).blue] := by
    show (setLed layout 0 0 (hsvToRgb 0 255 255).red (hsvToRgb 0 255 255).green
      (hsvToRgb 0 255 255).blue _).fills = _
    rw [setLed_eq, if_pos (by decide), hfades2]
  refine ⟨_, _, hstep, hfills, by decide, fun hlayout => ?_, ?_, ⟨rfl, rfl, rfl, rfl⟩,
    by decide, by decide, fun s => ?_⟩
  · rw [hfills]
    have hred : ledFill layout 0 0 (hsvToRgb 0 255 255).red (hsvToRgb 0 255 255).green
        (hsvToRgb 0 255 255).blue =
        (ledRectangle layout 0 0, { r := 255, g := 0, b := 0, a := 255 }) := rfl
    rw [hred]
    constructor
    · simp [shownColour, List.filter_append, List.getLast?_append]
    · intro cell hcell hne
      have hdrop : shownColour
          (wiredCells.map (fun cell => ledFill layout cell.1 cell.2 0 0 0) ++
            [(ledRectangle layout 0 0, { r := 255, g := 0, b := 0, a := 255 })])
          (ledRectangle layout cell.1 cell.2) =
          shownColour (wiredCells.map (fun cell => ledFill layout cell.1 cell.2 0 0 0))
            (ledRectangle layout cell.1 cell.2) := by
        have hdiff := hlayout cell hcell hne
        simp [shownColour, List.filter_append, Ne.symm hdiff]
      rw [hdrop]
      apply shownColour_of_uniform
      · intro fill hfill
        obtain ⟨c, _, hc⟩ := List.mem_map.mp hfill
        rw [← hc]
        rfl
      · exact ⟨_, List.mem_map.mpr ⟨cell, hcell, rfl⟩, rfl⟩
  · show ((drawFades layout 5 OrbitState.fresh.hue OrbitState.fresh.brightness
        { drawColor := drawColor, fills := [] }).1.write 0 0 255).read 0 0 = 255 ∧
      ∀ cell ∈ gridCells, cell ≠ (0, 0) →
        ((drawFades layout 5 OrbitState.fresh.hue OrbitState.fresh.brightness
          { drawColor := drawColor, fills := [] }).1.write 0 0 255).read cell.1 cell.2 = 0
    rw [hfades1]
    decide
  · simp only [drawBall, Grid.store]
    rw [if_neg (by decide)]


/-- An instance of `orbit_first_call` with the layout that puts the cell
(ring, spoke) at the offsets (ring, spoke), where no two cells share a
rectangle: the surface shows (255, 0, 0) on the cell (0, 0) and black on the
cell (2, 4). -/
theorem orbit_first_call_witness :
    ∃ st surface,
      orbit ⟨fun ring _ => ring, fun _ spoke => spoke⟩ OrbitState.fresh ⟨⟨0, 0, 0, 0⟩, []⟩ =
        some ({ functionName := "orbit", delay_ms := 40 }, st, surface) ∧
      shownColour surface.fills (ledRectangle ⟨fun ring _ => ring, fun _ spoke => spoke⟩ 0 0) =
        some { r := 255, g := 0, b := 0, a := 255 } ∧
      shownColour surface.fills (ledRectangle ⟨fun ring _ => ring, fun _ spoke => spoke⟩ 2 4) =
        some { r := 0, g := 0, b := 0, a := 255 } :=
  (orbit_first_call ⟨fun ring _ => ring, fun _ spoke => spoke⟩ ⟨0, 0, 0, 0⟩).elim
    fun st h => h.elim fun surface h =>
      ⟨st, surface, h.1, (h.2.2.2.1 (by decide)).1,
        (h.2.2.2.1 (by decide)).2 (2, 4) (by decide) (by decide)⟩

/-- C16: in every state reached by repeated calls of `orbit`, and likewise of
`triadOrbits`, from the fresh state (position -13, speed 13), no call has
failed; the position is -13 before the first call and in [0,78] before every
later call; the ring index `position / 16`, truncated toward zero, is in
[0,4], and the spoke written is in the grid, so that the next call writes
inside the 5 x 18 array and does not fail either. -/
theorem ball_ring_index_in_grid (layout : PolarLayout) (renderer : Renderer) (n : Nat) :
    (∃ st r, runFallible (orbit layout) (OrbitState.fresh, renderer) n = some (st, r) ∧
      (n = 0 → st.position = -13) ∧
      (1 ≤ n → 0 ≤ st.position ∧ st.position ≤ 78) ∧
      (0 ≤ Int.tdiv st.position 16 ∧ Int.tdiv st.position 16 ≤ 4) ∧
      (0 ≤ st.currentSpoke ∧ st.currentSpoke < 18) ∧
      (∃ brightness, (drawFades layout 5 st.hue st.brightness r).1.store
        (Int.tdiv st.position 16) st.currentSpoke 255 = some brightness) ∧
      (∃ called, orbit layout st r = some called)) ∧
    (∃ st r, runFallible (triadOrbits layout) (OrbitState.fresh, renderer) n = some (st, r) ∧
      (n = 0 → st.position = -13) ∧
      (1 ≤ n → 0 ≤ st.position ∧ st.position ≤ 78) ∧
      (0 ≤ Int.tdiv st.position 16 ∧ Int.tdiv st.position 16 ≤ 4) ∧
      (0 ≤ st.currentSpoke ∧ st.currentSpoke < 6) ∧
      (∃ called, triadOrbits layout st r = some called)) := by
  have hmem := orbitMotion_iterate_mem n
  constructor
  · obtain ⟨st, r, hrun, hmot, hc0, hc1, _⟩ := orbit_run layout renderer n
    rw [← hmot] at hmem
    have hb := (orbitMotionStates_closed _ hmem.1).2
    dsimp only at hb
    refine ⟨st, r, hrun, fun h0 => ?_, fun h1 => ?_, ⟨hb.1, by omega⟩, ⟨hc0, hc1⟩, ?_,
      ⟨_, orbit_in_grid layout st r ⟨hb.1, hb.2, hc0, hc1⟩⟩⟩
    · subst h0
      exact congrArg Prod.fst hmot
    · exact orbitMotionStates_tail_bounds _ (hmem.2 h1)
    · have hin : 0 ≤ Int.tdiv st.position 16 ∧ Int.tdiv st.position 16 < RING_COUNT ∧
          0 ≤ st.currentSpoke ∧ st.currentSpoke < SPOKE_COUNT := ⟨hb.1, hb.2, hc0, hc1⟩
      exact ⟨_, by simp only [Grid.store, if_pos hin]; rfl⟩
  · obtain ⟨st, r, hrun, hmot, hc0, hc1⟩ := triadOrbits_run layout renderer n
    rw [← hmot] at hmem
    have hb := (orbitMotionStates_closed _ hmem.1).2
    dsimp only at hb
    obtain ⟨b', r', hstep⟩ := triadOrbits_in_grid layout st r ⟨hb.1, hb.2, hc0⟩
    refine ⟨st, r, hrun, fun h0 => ?_, fun h1 => ?_, ⟨hb.1, by omega⟩, ⟨hc0, hc1⟩,
      ⟨_, hstep⟩⟩
    · subst h0
      exact congrArg Prod.fst hmot
    · exact orbitMotionStates_tail_bounds _ (hmem.2 h1)

/-- Instances of `ball_ring_index_in_grid`: before the first call the position
is -13, and after 14 calls of `orbit` and of `triadOrbits` it is in [0,78]. -/
theorem ball_ring_index_in_grid_witness :
    (∃ st r, runFallible (orbit ⟨fun _ _ => 0, fun _ _ => 0⟩)
        (OrbitState.fresh, ⟨⟨0, 0, 0, 0⟩, []⟩) 0 = some (st, r) ∧ st.position = -13) ∧
    (∃ st r, runFallible (orbit ⟨fun _ _ => 0, fun _ _ => 0⟩)
        (OrbitState.fresh, ⟨⟨0, 0, 0, 0⟩, []⟩) 14 = some (st, r) ∧
      0 ≤ st.position ∧ st.position ≤ 78) ∧
    (∃ st r, runFallible (triadOrbits ⟨fun _ _ => 0, fun _ _ => 0⟩)
        (OrbitState.fresh, ⟨⟨0, 0, 0, 0⟩, []⟩) 14 = some (st, r) ∧
      0 ≤ st.position ∧ st.position ≤ 78) :=
  ⟨(ball_ring_index_in_grid ⟨fun _ _ => 0, fun _ _ => 0⟩ ⟨⟨0, 0, 0, 0⟩, []⟩ 0).1.elim
      fun st h => h.elim fun r h => ⟨st, r, h.1, h.2.1 rfl⟩,
   (ball_ring_index_in_grid ⟨fun _ _ => 0, fun _ _ => 0⟩ ⟨⟨0, 0, 0, 0⟩, []⟩ 14).1.elim
      fun st h => h.elim fun r h => ⟨st, r, h.1, h.2.2.1 (by decide)⟩,
   (ball_ring_index_in_grid ⟨fun _ _ => 0, fun _ _ => 0⟩ ⟨⟨0, 0, 0, 0⟩, []⟩ 14).2.elim
      fun st h => h.elim fun r h => ⟨st, r, h.1, h.2.2.1 (by decide)⟩⟩

/-- C17: in every state reached by repeated calls of `pendulum` from its
fresh state (position 37, speed 0), no call has failed, 37 <= position <= 262
and -15 <= speed <= 15, the column index `position / 16` is in [2,16], so that
the next call writes inside the array and does not fail either; and the pair
(position, speed) is (37, 0) again after 60 calls and after no smaller positive
number of calls: it is (37, 0) exactly after the multiples of 60. -/
theorem pendulum_oscillates (layout : PolarLayout) (renderer : Renderer) (n : Nat) :
    (PendulumState.fresh.position = 37 ∧ PendulumState.fresh.speed = 0) ∧
    ∃ st r, runFallible (pendulum layout) (PendulumState.fresh, renderer) n = some (st, r) ∧
      (37 ≤ st.position ∧ st.position ≤ 262) ∧
      (-15 ≤ st.speed ∧ st.speed ≤ 15) ∧
      (2 ≤ Int.tdiv st.position 16 ∧ Int.tdiv st.position 16 ≤ 16) ∧
      (∃ called, pendulum layout st r = some called) ∧
      ((st.position, st.speed) = (37, 0) ↔ n % 60 = 0) := by
  refine ⟨⟨by decide, rfl⟩, ?_⟩
  obtain ⟨st, r, hrun, hmot⟩ := pendulum_run layout renderer n
  have hb := pendulumMotion_period (n % 60) (Nat.mod_lt n (by decide))
  rw [← pendulumMotion_iterate_mod, ← hmot] at hb
  dsimp only at hb
  obtain ⟨b', r', hstep⟩ := pendulum_in_grid layout st r ⟨by omega, by omega⟩
  exact ⟨st, r, hrun, ⟨hb.1, hb.2.1⟩, ⟨hb.2.2.1, hb.2.2.2.1⟩, ⟨hb.2.2.2.2.1, hb.2.2.2.2.2.1⟩,
    ⟨_, hstep⟩, hb.2.2.2.2.2.2⟩

/-- Instances of `pendulum_oscillates`: after 60 calls the pendulum is back at
(37, 0), and after 30 calls it is not. -/
theorem pendulum_oscillates_witness :
    (∃ st r, runFallible (pendulum ⟨fun _ _ => 0, fun _ _ => 0⟩)
        (PendulumState.fresh, ⟨⟨0, 0, 0, 0⟩, []⟩) 60 = some (st, r) ∧
      (st.position, st.speed) = (37, 0)) ∧
    (∃ st r, runFallible (pendulum ⟨fun _ _ => 0, fun _ _ => 0⟩)
        (PendulumState.fresh, ⟨⟨0, 0, 0, 0⟩, []⟩) 30 = some (st, r) ∧
      (st.position, st.speed) ≠ (37, 0)) :=
  ⟨(pendulum_oscillates ⟨fun _ _ => 0, fun _ _ => 0⟩ ⟨⟨0, 0, 0, 0⟩, []⟩ 60).2.elim
      fun st h => h.elim fun r h => ⟨st, r, h.1, h.2.2.2.2.2.mpr (by decide)⟩,
   (pendulum_oscillates ⟨fun _ _ => 0, fun _ _ => 0⟩ ⟨⟨0, 0, 0, 0⟩, []⟩ 30).2.elim
      fun st h => h.elim fun r h =>
        ⟨st, r, h.1, fun heq => absurd (h.2.2.2.2.2.mp heq) (by decide)⟩⟩


/-! ## The rainbow rings: theorems -/

/-- A loop of `setLed` calls with one colour over spokes from `SPOKE_COUNT` on
leaves the surface as it was. -/
theorem foldl_setLed_beyond (layout : PolarLayout) (ring : Int) (red green blue : Nat)
    (ks : List Nat) (renderer : Renderer) :
    ks.foldl (fun acc (k : Nat) =>
      setLed layout ring (SPOKE_COUNT + (k : Int)) red green blue acc) renderer = renderer := by
  induction ks generalizing renderer with
  | nil => rfl
  | cons k rest ih =>
    rw [List.foldl_cons, setLed_eq, if_neg, ih]
    simp only [simulatorWired, SPOKE_COUNT, decide_eq_true_eq]
    omega

/-- The loop `for (spoke = SPOKE_COUNT; spoke < SPOKE_COUNT * 2; ++spoke)
setLed(ring, spoke, r, g, b)` leaves the surface as it was. -/
theorem extra_loop_inert (layout : PolarLayout) (ring : Int) (red green blue : Nat)
    (renderer : Renderer) :
    forLoop SPOKE_COUNT (SPOKE_COUNT * 2) (fun spoke renderer =>
      setLed layout ring spoke red green blue renderer) renderer = renderer :=
  foldl_setLed_beyond layout ring red green blue _ renderer

/-- One call of `fadingRainbowRings` is one call of the variant without the
three extra loops. -/
theorem fadingRainbowRings_eq_variant (layout : PolarLayout) :
    fadingRainbowRings layout = fadingRainbowRingsWithoutExtraLoops layout := by
  funext st renderer
  simp only [fadingRainbowRings, fadingRainbowRingsWithoutExtraLoops, extra_loop_inert, ite_self]

/-- C18: the writes of `fadingRainbowRings` to the outer ring at the spokes
18..35 are inert: each of the three loops over those spokes leaves the surface
as it was, and from every state and surface, one call and any number of calls
of `fadingRainbowRings` give the same result, the same next state and the
same surface (the same list of fills) as the variant with the three loops
removed. -/
theorem fadingRainbowRings_extra_writes_inert (layout : PolarLayout)
    (st : FadingRainbowRingsState) (renderer : Renderer) (n : Nat) :
    (∀ ring red green blue surface,
      forLoop SPOKE_COUNT (SPOKE_COUNT * 2) (fun spoke surface =>
        setLed layout ring spoke red green blue surface) surface = surface) ∧
    fadingRainbowRings layout st renderer =
      fadingRainbowRingsWithoutExtraLoops layout st renderer ∧
    runCalls (fadingRainbowRings layout) (st, renderer) n =
      runCalls (fadingRainbowRingsWithoutExtraLoops layout) (st, renderer) n := by
  refine ⟨fun ring red green blue surface => extra_loop_inert layout ring red green blue surface,
    ?_, ?_⟩
  · rw [fadingRainbowRings_eq_variant]
  · rw [fadingRainbowRings_eq_variant]

/-- The state that one call of `fadingRainbowRings` leaves, for a state whose
ring and palette index are in [0,4] and whose value is a byte. -/
theorem fadingRainbowRings_next (layout : PolarLayout) (st : FadingRainbowRingsState)
    (renderer : Renderer)
    (h : 0 ≤ st.currentRing ∧ st.currentRing ≤ 4 ∧ 0 ≤ st.startHueIndex ∧ st.startHueIndex ≤ 4 ∧
      st.value ≤ 255) :
    (fadingRainbowRings layout st renderer).2.1 =
      (if st.status = Status.fadingIn then
        if st.value < 235 then { st with value := st.value + 20 }
        else if st.currentRing = 4 then
          { st with currentRing := 0, status := Status.fadingOut, value := 250 }
        else { st with currentRing := st.currentRing + 1, value := 0 }
      else
        if st.value > 20 then { st with value := st.value - 20 }
        else if st.currentRing = 4 then
          { currentRing := 0, status := Status.fadingIn, value := 0,
            startHueIndex := (st.startHueIndex + 1) % 5 }
        else { st with currentRing := st.currentRing + 1, value := 255 }) := by
  obtain ⟨shi, ring, value, status⟩ := st
  obtain ⟨h1, h2, h3, h4, h5⟩ := h
  dsimp only at h1 h2 h3 h4 h5
  have hs : Int.tmod (toSizeT (shi + 1)) 5 = (shi + 1) % 5 := by
    have e : toSizeT (shi + 1) = shi + 1 := by
      unfold toSizeT
      omega
    rw [e]
    exact Int.tmod_eq_emod (by omega) (by decide)
  by_cases hst : status = Status.fadingIn
  · simp only [fadingRainbowRings, if_pos hst, RING_COUNT, toUInt8]
    by_cases hv : value < 235
    · have hv' : (value : Int) < 255 - 20 := by omega
      rw [if_pos hv', if_pos hv]
      congr 1
      omega
    · have hv' : ¬ (value : Int) < 255 - 20 := by omega
      rw [if_neg hv', if_neg hv]
      by_cases hr : ring = 4
      · rw [if_pos (by omega), if_pos hr]
      · rw [if_neg (by omega), if_neg hr]
  · simp only [fadingRainbowRings, if_neg hst, RING_COUNT, toUInt8, hs]
    by_cases hv : value > 20
    · have hv' : (value : Int) > 20 := by omega
      rw [if_pos hv', if_pos hv]
      congr 1
      omega
    · have hv' : ¬ (value : Int) > 20 := by omega
      rw [if_neg hv', if_neg hv]
      by_cases hr : ring = 4
      · rw [if_pos (by omega), if_pos hr]
      · rw [if_neg (by omega), if_neg hr]


/-- In every state reached by calls of `fadingRainbowRings` from its fresh
state, the ring and the palette index are in [0,4] and the value is a byte. -/
theorem fadingRainbowRings_reachable (layout : PolarLayout) (renderer : Renderer) (n : Nat) :
    0 ≤ (fadingRainbowRingsStateAfter layout renderer n).currentRing ∧
    (fadingRainbowRingsStateAfter layout renderer n).currentRing ≤ 4 ∧
    0 ≤ (fadingRainbowRingsStateAfter layout renderer n).startHueIndex ∧
    (fadingRainbowRingsStateAfter layout renderer n).startHueIndex ≤ 4 ∧
    (fadingRainbowRingsStateAfter layout renderer n).value ≤ 255 := by
  induction n with
  | zero =>
    show 0 ≤ FadingRainbowRingsState.fresh.currentRing ∧
      FadingRainbowRingsState.fresh.currentRing ≤ 4 ∧
      0 ≤ FadingRainbowRingsState.fresh.startHueIndex ∧
      FadingRainbowRingsState.fresh.startHueIndex ≤ 4 ∧
      FadingRainbowRingsState.fresh.value ≤ 255
    decide
  | succ n ih =>
    have hnext : fadingRainbowRingsStateAfter layout renderer (n + 1) = _ :=
      fadingRainbowRings_next layout (fadingRainbowRingsStateAfter layout renderer n)
        (runCalls (fadingRainbowRings layout) (FadingRainbowRingsState.fresh, renderer) n).2 ih
    rw [hnext]
    generalize fadingRainbowRingsStateAfter layout renderer n = st at ih
    obtain ⟨shi, ring, value, status⟩ := st
    dsimp only at ih ⊢
    split_ifs <;> dsimp only <;> omega

/-- C19: in every state reached by repeated calls of `fadingRainbowRings` from
its fresh state (startHueIndex 0, currentRing 0, value 40, fading in), the
ring and the palette index are in [0,4] and the value is a byte; a call that
stays on its ring keeps the phase and the palette index and changes the value
by exactly +20 (fading in) or -20 (fading out), as integers, so without
wrapping; otherwise the ring advances by one or wraps from 4 to 0; the phase
flips exactly when the ring wraps from 4 back to 0, and the palette index
advances by 1 modulo 5 exactly on the flip from fading out to fading in and is
unchanged otherwise. -/
theorem fadingRainbowRings_invariants (layout : PolarLayout) (renderer : Renderer) (n : Nat) :
    (FadingRainbowRingsState.fresh =
      { startHueIndex := 0, currentRing := 0, value := 40, status := Status.fadingIn }) ∧
    (0 ≤ (fadingRainbowRingsStateAfter layout renderer n).currentRing ∧
      (fadingRainbowRingsStateAfter layout renderer n).currentRing ≤ 4) ∧
    (0 ≤ (fadingRainbowRingsStateAfter layout renderer n).startHueIndex ∧
      (fadingRainbowRingsStateAfter layout renderer n).startHueIndex ≤ 4) ∧
    (fadingRainbowRingsStateAfter layout renderer n).value ≤ 255 ∧
    ((fadingRainbowRingsStateAfter layout renderer (n + 1)).currentRing =
        (fadingRainbowRingsStateAfter layout renderer n).currentRing →
      (fadingRainbowRingsStateAfter layout renderer (n + 1)).status =
        (fadingRainbowRingsStateAfter layout renderer n).status ∧
      ((fadingRainbowRingsStateAfter layout renderer n).status = Status.fadingIn →
        (fadingRainbowRingsStateAfter layout renderer (n + 1)).value =
          (fadingRainbowRingsStateAfter layout renderer n).value + 20) ∧
      ((fadingRainbowRingsStateAfter layout renderer n).status = Status.fadingOut →
        (fadingRainbowRingsStateAfter layout renderer (n + 1)).value + 20 =
          (fadingRainbowRingsStateAfter layout renderer n).value)) ∧
    ((fadingRainbowRingsStateAfter layout renderer (n + 1)).currentRing =
        (fadingRainbowRingsStateAfter layout renderer n).currentRing ∨
      (fadingRainbowRingsStateAfter layout renderer (n + 1)).currentRing =
        (fadingRainbowRingsStateAfter layout renderer n).currentRing + 1 ∨
      ((fadingRainbowRingsStateAfter layout renderer n).currentRing = 4 ∧
        (fadingRainbowRingsStateAfter layout renderer (n + 1)).currentRing = 0)) ∧
    ((fadingRainbowRingsStateAfter layout renderer (n + 1)).status ≠
        (fadingRainbowRingsStateAfter layout renderer n).status ↔
      ((fadingRainbowRingsStateAfter layout renderer n).currentRing = 4 ∧
        (fadingRainbowRingsStateAfter layout renderer (n + 1)).currentRing = 0)) ∧
    ((fadingRainbowRingsStateAfter layout renderer (n + 1)).startHueIndex =
        ((fadingRainbowRingsStateAfter layout renderer n).startHueIndex + 1) % 5 ↔
      ((fadingRainbowRingsStateAfter layout renderer n).status = Status.fadingOut ∧
        (fadingRainbowRingsStateAfter layout renderer (n + 1)).status = Status.fadingIn)) ∧
    ((fadingRainbowRingsStateAfter layout renderer (n + 1)).startHueIndex ≠
        ((fadingRainbowRingsStateAfter layout renderer n).startHueIndex + 1) % 5 →
      (fadingRainbowRingsStateAfter layout renderer (n + 1)).startHueIndex =
        (fadingRainbowRingsStateAfter layout renderer n).startHueIndex) := by
  have hinv := fadingRainbowRings_reachable layout renderer n
  have hnext : fadingRainbowRingsStateAfter layout renderer (n + 1) = _ :=
    fadingRainbowRings_next layout (fadingRainbowRingsStateAfter layout renderer n)
      (runCalls (fadingRainbowRings layout) (FadingRainbowRingsState.fresh, renderer) n).2 hinv
  rw [hnext]
  generalize fadingRainbowRingsStateAfter layout renderer n = st at hinv
  obtain ⟨shi, ring, value, status⟩ := st
  obtain ⟨h1, h2, h3, h4, h5⟩ := hinv
  dsimp only at h1 h2 h3 h4 h5 ⊢
  refine ⟨rfl, ⟨h1, h2⟩, ⟨h3, h4⟩, h5, ?_⟩
  cases status
  · by_cases hv : value < 235
    · simp [hv]
      omega
    · by_cases hr : ring = 4
      · simp [hv, hr]
        omega
      · simp [hv, hr]
        omega
  · by_cases hv : value > 20
    · simp [hv]
      omega
    · by_cases hr : ring = 4
      · simp [hv, hr]
      · simp [hv, hr]
        omega


/-- Instances of `fadingRainbowRings_invariants`: the first call stays on ring
0 and raises the value from 40 to 60; the eleventh call leaves ring 0 without
a flip of the phase. -/
theorem fadingRainbowRings_invariants_witness :
    (fadingRainbowRingsStateAfter ⟨fun _ _ => 0, fun _ _ => 0⟩ ⟨⟨0, 0, 0, 0⟩, []⟩ 1).value =
      (fadingRainbowRingsStateAfter ⟨fun _ _ => 0, fun _ _ => 0⟩ ⟨⟨0, 0, 0, 0⟩, []⟩ 0).value + 20 ∧
    (fadingRainbowRingsStateAfter ⟨fun _ _ => 0, fun _ _ => 0⟩ ⟨⟨0, 0, 0, 0⟩, []⟩ 11).startHueIndex =
      (fadingRainbowRingsStateAfter ⟨fun _ _ => 0, fun _ _ => 0⟩ ⟨⟨0, 0, 0, 0⟩, []⟩ 10).startHueIndex :=
  ⟨((fadingRainbowRings_invariants ⟨fun _ _ => 0, fun _ _ => 0⟩ ⟨⟨0, 0, 0, 0⟩, []⟩ 0).2.2.2.2.1
      (by decide)).2.1 (by decide),
   (fadingRainbowRings_invariants ⟨fun _ _ => 0, fun _ _ => 0⟩ ⟨⟨0, 0, 0, 0⟩, []⟩ 10).2.2.2.2.2.2.2.2
      (by decide)⟩


/-! ## The index mapping as a bijection: theorems -/

/-- The indices of the populated cells, in the order of `wiredCells`, are the
numbers 0 to 49, each once. -/
theorem wiredCells_indices :
    (wiredCells.map (fun cell => ringSpokeToIndex cell.1 cell.2)).Nodup ∧
    (∀ i ∈ List.range 50, ∃ cell ∈ wiredCells,
      ringSpokeToIndex cell.1 cell.2 = some (i : Int)) := by
  constructor
  · set_option maxRecDepth 100000 in decide
  · set_option maxRecDepth 100000 in decide

/-- A cell that `ringSpokeToIndex` does not map to the sentinel is in
`wiredCells`. -/
theorem mem_wiredCells_of_index (ring spoke : Int)
    (h : ringSpokeToIndex ring spoke ≠ some (-1)) : (ring, spoke) ∈ wiredCells := by
  rw [wiredCells_complete.2.2, simulatorWired_eq_indexWired]
  simpa [indexWired] using h

/-- C21: `ringSpokeToIndex` is a bijection between the wired positions and
the physical indices 0..49: two distinct positions of the grid whose result is
not -1 have different results, every i with 0 <= i < 50 is the result of some
position of the grid, and exactly 50 positions of the grid are wired. -/
theorem ringSpokeToIndex_bijection :
    (∀ ring spoke ring2 spoke2 : Int,
      (0 ≤ ring ∧ ring < 5 ∧ 0 ≤ spoke ∧ spoke < 18) →
      (0 ≤ ring2 ∧ ring2 < 5 ∧ 0 ≤ spoke2 ∧ spoke2 < 18) →
      ringSpokeToIndex ring spoke ≠ some (-1) →
      ringSpokeToIndex ring2 spoke2 ≠ some (-1) →
      (ring, spoke) ≠ (ring2, spoke2) →
      ringSpokeToIndex ring spoke ≠ ringSpokeToIndex ring2 spoke2) ∧
    (∀ i : Int, 0 ≤ i ∧ i < 50 →
      ∃ ring spoke : Int, (0 ≤ ring ∧ ring < 5 ∧ 0 ≤ spoke ∧ spoke < 18) ∧
        ringSpokeToIndex ring spoke = some i) ∧
    (gridCells.filter (fun cell => decide (ringSpokeToIndex cell.1 cell.2 ≠ some (-1)))).length =
      50 := by
  refine ⟨fun ring spoke ring2 spoke2 _ _ h1 h2 hne heq => ?_, fun i hi => ?_, by decide⟩
  · have hinj := List.inj_on_of_nodup_map wiredCells_indices.1
      (mem_wiredCells_of_index ring spoke h1) (mem_wiredCells_of_index ring2 spoke2 h2) heq
    exact hne hinj
  · obtain ⟨cell, hcell, hidx⟩ := wiredCells_indices.2 i.toNat (List.mem_range.mpr (by omega))
    have hcast : ((i.toNat : Nat) : Int) = i := by omega
    rw [hcast] at hidx
    have hw := (wiredCells_complete.2.2 cell.1 cell.2).mp hcell
    simp only [simulatorWired, decide_eq_true_eq] at hw
    exact ⟨cell.1, cell.2, ⟨hw.1, hw.2.1, hw.2.2.1, hw.2.2.2.1⟩, hidx⟩

/-- Instances of `ringSpokeToIndex_bijection`: the cells (4, 1) and (0, 2)
have different indices, and the index 49 is that of a cell of the grid. -/
theorem ringSpokeToIndex_bijection_witness :
    ringSpokeToIndex 4 1 ≠ ringSpokeToIndex 0 2 ∧
    (∃ ring spoke : Int, (0 ≤ ring ∧ ring < 5 ∧ 0 ≤ spoke ∧ spoke < 18) ∧
      ringSpokeToIndex ring spoke = some 49) :=
  ⟨ringSpokeToIndex_bijection.1 4 1 0 2 (by decide) (by decide) (by decide) (by decide)
      (by decide),
   ringSpokeToIndex_bijection.2.1 49 (by decide)⟩

/-! ## The two half periods of the sine: theorems -/

/-- On its first half period and at 128 `sin8` is at least 128, on the rest
of the second half period it is below 128, and it is never 0. -/
theorem sin8_sign : ∀ theta, theta < 256 →
    (128 ≤ sin8 theta ↔ theta ≤ 128) ∧ sin8 theta ≠ 0 := by
  set_option maxRecDepth 100000 in decide

/-- C23: for every theta in [0,255],
`sin8 theta + sin8 ((theta + 128) mod 256) = 256` as integers; `sin8 theta` is
at least 128 exactly when theta <= 128, and `sin8` never returns 0. -/
theorem sin8_reflection (theta : Nat) (h : theta < 256) :
    (sin8 theta : Int) + (sin8 ((theta + 128) % 256) : Int) = 256 ∧
    (128 ≤ sin8 theta ↔ theta ≤ 128) ∧
    sin8 theta ≠ 0 := by
  have hsum := sin8_add_half_period theta h
  rw [Nat.add_comm 128 theta] at hsum
  exact ⟨by omega, (sin8_sign theta h).1, (sin8_sign theta h).2⟩

/-- Instances of `sin8_reflection` at theta = 128, the last argument with a
value of at least 128, and at theta = 129. -/
theorem sin8_reflection_witness :
    (sin8 128 : Int) + (sin8 ((128 + 128) % 256) : Int) = 256 ∧
    (128 ≤ sin8 128 ↔ 128 ≤ 128) ∧ (128 ≤ sin8 129 ↔ 129 ≤ 128) ∧ sin8 192 ≠ 0 :=
  ⟨(sin8_reflection 128 (by decide)).1, (sin8_reflection 128 (by decide)).2.1,
   (sin8_reflection 129 (by decide)).2.1, (sin8_reflection 192 (by decide)).2.2⟩

/-! ## The spoke of the orbiting ball: theorems -/

/-- From the first call on the motion of the ball has period 26. -/
theorem orbitMotion_iterate_mod (m : Nat) :
    orbitMotion^[m] (0, 12) = orbitMotion^[m % 26] (0, 12) := by
  have h26 : orbitMotion^[26] (0, 12) = (0, 12) := by
    set_option maxRecDepth 100000 in decide
  have hq : ∀ q : Nat, orbitMotion^[26 * q] (0, 12) = (0, 12) := by
    intro q
    induction q with
    | zero => rfl
    | succ q ihq =>
      rw [Nat.mul_succ, Function.iterate_add_apply, h26, ihq]
  conv_lhs => rw [← Nat.mod_add_div m 26]
  rw [Function.iterate_add_apply, hq]

/-- Within one period the ball restarts at the last step only. -/
theorem orbitMotion_period_wrap :
    ∀ k, k < 26 →
      ((orbitMotion^[k] (0, 12)).1 + (orbitMotion^[k] (0, 12)).2 < 0 ↔ k = 25) := by
  set_option maxRecDepth 100000 in decide

/-- The call after `n` calls restarts the ball exactly when `n` is a positive
multiple of 26. -/
theorem orbitMotion_wrap_iff (n : Nat) :
    ((orbitMotion^[n] (-13, 13)).1 + (orbitMotion^[n] (-13, 13)).2 < 0) ↔
      (1 ≤ n ∧ n % 26 = 0) := by
  cases n with
  | zero => decide
  | succ m =>
    have h1 : orbitMotion^[m + 1] (-13, 13) = orbitMotion^[m] (0, 12) := by
      rw [Function.iterate_succ_apply]
      rfl
    rw [h1, orbitMotion_iterate_mod, orbitMotion_period_wrap (m % 26) (Nat.mod_lt m (by decide))]
    omega

/-- After `n` calls of `orbit` from its fresh state `currentSpoke` is ten
times the number of restarts so far, modulo 18. -/
theorem orbit_run_currentSpoke (layout : PolarLayout) (renderer : Renderer) (n : Nat) :
    ∃ st r, runFallible (orbit layout) (OrbitState.fresh, renderer) n = some (st, r) ∧
      (st.position, st.speed) = orbitMotion^[n] (-13, 13) ∧
      st.currentSpoke = (10 * (orbitWraps n : Int)) % 18 := by
  induction n with
  | zero => exact ⟨OrbitState.fresh, renderer, rfl, rfl, by decide⟩
  | succ n ih =>
    obtain ⟨st, r, hrun, hmot, hcs⟩ := ih
    have hmem := (orbitMotion_iterate_mem n).1
    rw [← hmot] at hmem
    have hb := (orbitMotionStates_closed _ hmem).2
    have hwrap := orbitMotion_wrap_iff n
    rw [← hmot] at hwrap
    dsimp only at hwrap
    have hstep := orbit_in_grid layout st r ⟨hb.1, hb.2, by omega, by omega⟩
    have ht : Int.tmod (st.currentSpoke + 9 + 1) 18 = (st.currentSpoke + 9 + 1) % 18 :=
      Int.tmod_eq_emod (by omega) (by decide)
    refine ⟨_, _, by simp only [runFallible, hrun, hstep]; rfl, ?_, ?_⟩
    · rw [Function.iterate_succ_apply', ← hmot]
    · show (if st.position + st.speed < 0 then Int.tmod (st.currentSpoke + 9 + 1) 18
          else st.currentSpoke) = (10 * (orbitWraps (n + 1) : Int)) % 18
      rw [ht]
      unfold orbitWraps at hcs ⊢
      by_cases hw : st.position + st.speed < 0
      · rw [if_pos hw]
        have hn := hwrap.mp hw
        omega
      · rw [if_neg hw]
        have hn : ¬ (1 ≤ n ∧ n % 26 = 0) := fun h => hw (hwrap.mpr h)
        omega


/-- C24: in every state reached by repeated calls of `orbit` from its fresh
state, no call has failed and `currentSpoke` is an even number in [0,18): it
is ten times the number of restarts of the ball so far, modulo 18, a call
adding 10 modulo 18 exactly when it restarts the ball, so that it returns to
a value after 9 restarts and not sooner, and every even spoke is reached.
Hence the cell of the ball (position / 16, currentSpoke) is populated under
the wiring rule of `setLed` (and has a hardware index), and the next call
ends by filling that cell with the full-brightness colour
`hsvToRgb hue 255 255`. -/
theorem orbit_ball_always_drawn (layout : PolarLayout) (renderer : Renderer) (n : Nat) :
    (∃ st r, runFallible (orbit layout) (OrbitState.fresh, renderer) n = some (st, r) ∧
      (0 ≤ st.currentSpoke ∧ st.currentSpoke < 18 ∧ st.currentSpoke % 2 = 0) ∧
      st.currentSpoke = (10 * (orbitWraps n : Int)) % 18 ∧
      (st.position + st.speed < 0 ↔ orbitWraps (n + 1) = orbitWraps n + 1) ∧
      (0 ≤ Int.tdiv st.position 16 ∧ Int.tdiv st.position 16 < 5) ∧
      simulatorWired (Int.tdiv st.position 16) st.currentSpoke = true ∧
      ringSpokeToIndex (Int.tdiv st.position 16) st.currentSpoke ≠ some (-1) ∧
      ∃ called, orbit layout st r = some called ∧
        called.2.2.fills =
          (drawFades layout 5 st.hue st.brightness r).2.fills ++
            [(ledRectangle layout (Int.tdiv st.position 16) st.currentSpoke,
              { r := (hsvToRgb st.hue 255 255).red
                g := (hsvToRgb st.hue 255 255).green
                b := (hsvToRgb st.hue 255 255).blue
                a := 255 })] ∧
        called.2.1.currentSpoke =
          (if st.position + st.speed < 0 then (st.currentSpoke + 10) % 18
            else st.currentSpoke)) ∧
    (∀ w : Nat, (10 * ((w + 9 : Nat) : Int)) % 18 = (10 * (w : Int)) % 18) ∧
    (∀ w v : Nat, w < v → v < w + 9 → (10 * (v : Int)) % 18 ≠ (10 * (w : Int)) % 18) ∧
    (∀ e : Int, 0 ≤ e → e < 18 → e % 2 = 0 →
      ∃ m st r, runFallible (orbit layout) (OrbitState.fresh, renderer) m = some (st, r) ∧
        st.currentSpoke = e) := by
  refine ⟨?_, fun w => by omega, fun w v h1 h2 => by omega, fun e he0 he1 he2 => ?_⟩
  · obtain ⟨st, r, hrun, hmot, hcs⟩ := orbit_run_currentSpoke layout renderer n
    have hmem := (orbitMotion_iterate_mem n).1
    rw [← hmot] at hmem
    have hb := (orbitMotionStates_closed _ hmem).2
    dsimp only at hb
    have hwrap := orbitMotion_wrap_iff n
    rw [← hmot] at hwrap
    dsimp only at hwrap
    have hc : 0 ≤ st.currentSpoke ∧ st.currentSpoke < 18 ∧ st.currentSpoke % 2 = 0 := by
      omega
    have hwired : simulatorWired (Int.tdiv st.position 16) st.currentSpoke = true := by
      simp only [simulatorWired, decide_eq_true_eq]
      omega
    have hindex : ringSpokeToIndex (Int.tdiv st.position 16) st.currentSpoke ≠ some (-1) := by
      have h := hwired
      rw [simulatorWired_eq_indexWired] at h
      simpa [indexWired] using h
    have hstep := orbit_in_grid layout st r ⟨hb.1, hb.2, hc.1, hc.2.1⟩
    have ht : Int.tmod (st.currentSpoke + 9 + 1) 18 = (st.currentSpoke + 10) % 18 := by
      rw [Int.tmod_eq_emod (by omega) (by decide)]
      congr 1
      omega
    refine ⟨st, r, hrun, hc, hcs, ?_, hb, hwired, hindex, _, hstep, ?_, ?_⟩
    · rw [hwrap]
      unfold orbitWraps
      omega
    · show (setLed layout (Int.tdiv st.position 16) st.currentSpoke (hsvToRgb st.hue 255 255).red
        (hsvToRgb st.hue 255 255).green (hsvToRgb st.hue 255 255).blue
        (drawFades layout 5 st.hue st.brightness r).2).fills = _
      rw [setLed_eq, if_pos hwired]
      rfl
    · show (if st.position + st.speed < 0 then Int.tmod (st.currentSpoke + 9 + 1) 18
        else st.currentSpoke) = _
      rw [ht]
  · obtain ⟨st, r, hrun, _, hcs⟩ :=
      orbit_run_currentSpoke layout renderer (26 * (e % 9).toNat + 1)
    refine ⟨_, st, r, hrun, ?_⟩
    rw [hcs]
    unfold orbitWraps
    omega

/-- Instances of `orbit_ball_always_drawn`: ten restarts lead to the same
spoke as one, five do not, and the even spoke 12 is reached. -/
theorem orbit_ball_always_drawn_witness :
    (10 * ((1 + 9 : Nat) : Int)) % 18 = (10 * ((1 : Nat) : Int)) % 18 ∧
    (10 * ((5 : Nat) : Int)) % 18 ≠ (10 * ((1 : Nat) : Int)) % 18 ∧
    (∃ m st r, runFallible (orbit ⟨fun _ _ => 0, fun _ _ => 0⟩)
        (OrbitState.fresh, ⟨⟨0, 0, 0, 0⟩, []⟩) m = some (st, r) ∧ st.currentSpoke = 12) :=
  ⟨(orbit_ball_always_drawn ⟨fun _ _ => 0, fun _ _ => 0⟩ ⟨⟨0, 0, 0, 0⟩, []⟩ 0).2.1 1,
   (orbit_ball_always_drawn ⟨fun _ _ => 0, fun _ _ => 0⟩ ⟨⟨0, 0, 0, 0⟩, []⟩ 0).2.2.1 1 5
      (by decide) (by decide),
   (orbit_ball_always_drawn ⟨fun _ _ => 0, fun _ _ => 0⟩ ⟨⟨0, 0, 0, 0⟩, []⟩ 0).2.2.2 12
      (by decide) (by decide) (by decide)⟩


/-! ## The channels of `hsvToRgb`: theorems -/

/-- With a non-zero saturation the channels of `hsvToRgb` are the value, `p`
and one of `q` and `t`, placed by the region of the hue. -/
theorem hsvToRgb_cases (hue saturation value : Nat) (hs0 : saturation ≠ 0) :
    hsvToRgb hue saturation value =
        { red := value, green := hsvT hue saturation value, blue := hsvP saturation value } ∨
    hsvToRgb hue saturation value =
        { red := hsvQ hue saturation value, green := value, blue := hsvP saturation value } ∨
    hsvToRgb hue saturation value =
        { red := hsvP saturation value, green := value, blue := hsvT hue saturation value } ∨
    hsvToRgb hue saturation value =
        { red := hsvP saturation value, green := hsvQ hue saturation value, blue := value } ∨
    hsvToRgb hue saturation value =
        { red := hsvT hue saturation value, green := hsvP saturation value, blue := value } ∨
    hsvToRgb hue saturation value =
        { red := value, green := hsvP saturation value, blue := hsvQ hue saturation value } := by
  simp only [hsvToRgb, if_neg hs0]
  split
  · exact Or.inl rfl
  · exact Or.inr (Or.inl rfl)
  · exact Or.inr (Or.inr (Or.inl rfl))
  · exact Or.inr (Or.inr (Or.inr (Or.inl rfl)))
  · exact Or.inr (Or.inr (Or.inr (Or.inr (Or.inl rfl))))
  · exact Or.inr (Or.inr (Or.inr (Or.inr (Or.inr rfl))))

/-- A shift of a non-negative `int` by 8 is the division by 256. -/
theorem shiftRight8_natCast (m : Nat) : ((m : Int) >>> (8 : Int)) = ((m / 256 : Nat) : Int) := by
  have h := Int.shiftRight_coe_nat m 8
  rw [Nat.shiftRight_eq_div_pow] at h
  exact h

/-- The conversion of a non-negative `int` to `uint8_t`. -/
theorem toUInt8_natCast (n : Nat) : toUInt8 (n : Int) = n % 256 := by
  unfold toUInt8
  omega

/-- The local `remainder` of `hsvToRgb` for an 8-bit hue. -/
theorem hsvRemainder_eq (hue : Nat) (hh : hue < 256) : hsvRemainder hue = hue % 43 * 6 := by
  have hreg : Int.tdiv (hue : Int) 43 = (hue : Int) / 43 :=
    Int.tdiv_eq_ediv (by omega) (by decide)
  simp only [hsvRemainder, hreg, toUInt8]
  omega

/-- The local `p` of `hsvToRgb` in natural numbers. -/
theorem hsvP_eq (saturation value : Nat) (hs : saturation < 256) (hv : value < 256) :
    hsvP saturation value = value * (255 - saturation) / 256 := by
  have e1 : (value : Int) * (255 - (saturation : Int)) =
      ((value * (255 - saturation) : Nat) : Int) := by
    push_cast [Nat.cast_sub (show saturation ≤ 255 by omega)]
    rfl
  have hb : value * (255 - saturation) ≤ 255 * 255 :=
    Nat.mul_le_mul (by omega) (by omega)
  rw [hsvP, e1, shiftRight8_natCast, toUInt8_natCast]
  omega

/-- The local `q` of `hsvToRgb` in natural numbers. -/
theorem hsvQ_eq (hue saturation value : Nat) (hh : hue < 256) (hs : saturation < 256)
    (hv : value < 256) :
    hsvQ hue saturation value =
      value * (255 - saturation * (hue % 43 * 6) / 256) / 256 := by
  have hr : hue % 43 * 6 ≤ 255 := by omega
  have hb1 : saturation * (hue % 43 * 6) ≤ 255 * 255 := Nat.mul_le_mul (by omega) hr
  have hx : saturation * (hue % 43 * 6) / 256 ≤ 255 := by omega
  have e1 : (saturation : Int) * ((hue % 43 * 6 : Nat) : Int) =
      ((saturation * (hue % 43 * 6) : Nat) : Int) := by
    push_cast
    rfl
  have e2 : (value : Int) * (255 - ((saturation * (hue % 43 * 6) / 256 : Nat) : Int)) =
      ((value * (255 - saturation * (hue % 43 * 6) / 256) : Nat) : Int) := by
    push_cast [Nat.cast_sub hx]
    rfl
  have hb2 : value * (255 - saturation * (hue % 43 * 6) / 256) ≤ 255 * 255 :=
    Nat.mul_le_mul (by omega) (by omega)
  rw [hsvQ, hsvRemainder_eq hue hh, e1, shiftRight8_natCast, e2, shiftRight8_natCast,
    toUInt8_natCast]
  omega

/-- The local `t` of `hsvToRgb` in natural numbers. -/
theorem hsvT_eq (hue saturation value : Nat) (hh : hue < 256) (hs : saturation < 256)
    (hv : value < 256) :
    hsvT hue saturation value =
      value * (255 - saturation * (255 - hue % 43 * 6) / 256) / 256 := by
  have hr : hue % 43 * 6 ≤ 255 := by omega
  have hb1 : saturation * (255 - hue % 43 * 6) ≤ 255 * 255 :=
    Nat.mul_le_mul (by omega) (by omega)
  have hx : saturation * (255 - hue % 43 * 6) / 256 ≤ 255 := by omega
  have e1 : (saturation : Int) * (255 - ((hue % 43 * 6 : Nat) : Int)) =
      ((saturation * (255 - hue % 43 * 6) : Nat) : Int) := by
    push_cast [Nat.cast_sub hr]
    rfl
  have e2 : (value : Int) * (255 - ((saturation * (255 - hue % 43 * 6) / 256 : Nat) : Int)) =
      ((value * (255 - saturation * (255 - hue % 43 * 6) / 256) : Nat) : Int) := by
    push_cast [Nat.cast_sub hx]
    rfl
  have hb2 : value * (255 - saturation * (255 - hue % 43 * 6) / 256) ≤ 255 * 255 :=
    Nat.mul_le_mul (by omega) (by omega)
  rw [hsvT, hsvRemainder_eq hue hh, e1, shiftRight8_natCast, e2, shiftRight8_natCast,
    toUInt8_natCast]
  omega

/-- The locals of `hsvToRgb` are ordered: `p` is at most `q` and `t`, which
are at most the value. -/
theorem hsv_locals_ordered (hue saturation value : Nat) (hh : hue < 256)
    (hs : saturation < 256) (hv : value < 256) :
    hsvP saturation value ≤ hsvQ hue saturation value ∧
    hsvP saturation value ≤ hsvT hue saturation value ∧
    hsvQ hue saturation value ≤ value ∧
    hsvT hue saturation value ≤ value := by
  rw [hsvP_eq saturation value hs hv, hsvQ_eq hue saturation value hh hs hv,
    hsvT_eq hue saturation value hh hs hv]
  have hx : saturation * (hue % 43 * 6) / 256 ≤ saturation :=
    Nat.div_le_of_le_mul (by
      calc saturation * (hue % 43 * 6) ≤ saturation * 256 := Nat.mul_le_mul_left _ (by omega)
        _ = 256 * saturation := Nat.mul_comm _ _)
  have hy : saturation * (255 - hue % 43 * 6) / 256 ≤ saturation :=
    Nat.div_le_of_le_mul (by
      calc saturation * (255 - hue % 43 * 6) ≤ saturation * 256 :=
            Nat.mul_le_mul_left _ (by omega)
        _ = 256 * saturation := Nat.mul_comm _ _)
  refine ⟨?_, ?_, ?_, ?_⟩
  · exact Nat.div_le_div_right (Nat.mul_le_mul_left _ (by omega))
  · exact Nat.div_le_div_right (Nat.mul_le_mul_left _ (by omega))
  · exact Nat.div_le_of_le_mul (by
      calc value * (255 - saturation * (hue % 43 * 6) / 256) ≤ value * 256 :=
            Nat.mul_le_mul_left _ (by omega)
        _ = 256 * value := Nat.mul_comm _ _)
  · exact Nat.div_le_of_le_mul (by
      calc value * (255 - saturation * (255 - hue % 43 * 6) / 256) ≤ value * 256 :=
            Nat.mul_le_mul_left _ (by omega)
        _ = 256 * value := Nat.mul_comm _ _)

/-- With a non-zero saturation every channel of `hsvToRgb` lies between `p`
and the value, one channel is the value and one is `p`. -/
theorem hsvToRgb_between (hue saturation value : Nat) (hh : hue < 256)
    (hs : saturation < 256) (hv : value < 256) (hs0 : saturation ≠ 0) :
    (hsvP saturation value ≤ (hsvToRgb hue saturation value).red ∧
      (hsvToRgb hue saturation value).red ≤ value) ∧
    (hsvP saturation value ≤ (hsvToRgb hue saturation value).green ∧
      (hsvToRgb hue saturation value).green ≤ value) ∧
    (hsvP saturation value ≤ (hsvToRgb hue saturation value).blue ∧
      (hsvToRgb hue saturation value).blue ≤ value) ∧
    ((hsvToRgb hue saturation value).red = value ∨
      (hsvToRgb hue saturation value).green = value ∨
      (hsvToRgb hue saturation value).blue = value) ∧
    ((hsvToRgb hue saturation value).red = hsvP saturation value ∨
      (hsvToRgb hue saturation value).green = hsvP saturation value ∨
      (hsvToRgb hue saturation value).blue = hsvP saturation value) := by
  obtain ⟨h1, h2, h3, h4⟩ := hsv_locals_ordered hue saturation value hh hs hv
  rcases hsvToRgb_cases hue saturation value hs0 with h | h | h | h | h | h <;>
    rw [h] <;> dsimp only <;> omega

/-- C22: for all 8-bit hue, saturation and value, every channel produced by
`hsvToRgb` is at most the value and one channel equals it, so that the largest
channel is the value; when the saturation is not 0 the smallest channel is
`(value * (255 - saturation)) >> 8`. Hence the value 0 yields black, and
`hsvToRgb hue 255 255` has one channel 255 and one channel 0. -/
theorem hsvToRgb_channels (hue saturation value : Nat) (hh : hue < 256)
    (hs : saturation < 256) (hv : value < 256) :
    ((hsvToRgb hue saturation value).red ≤ value ∧
      (hsvToRgb hue saturation value).green ≤ value ∧
      (hsvToRgb hue saturation value).blue ≤ value) ∧
    ((hsvToRgb hue saturation value).red = value ∨
      (hsvToRgb hue saturation value).green = value ∨
      (hsvToRgb hue saturation value).blue = value) ∧
    max (hsvToRgb hue saturation value).red
      (max (hsvToRgb hue saturation value).green (hsvToRgb hue saturation value).blue) = value ∧
    (saturation > 0 →
      min (hsvToRgb hue saturation value).red
        (min (hsvToRgb hue saturation value).green (hsvToRgb hue saturation value).blue) =
          (value * (255 - saturation)) >>> 8) ∧
    (value = 0 → hsvToRgb hue saturation value = { red := 0, green := 0, blue := 0 }) ∧
    (((hsvToRgb hue 255 255).red = 255 ∨ (hsvToRgb hue 255 255).green = 255 ∨
        (hsvToRgb hue 255 255).blue = 255) ∧
      ((hsvToRgb hue 255 255).red = 0 ∨ (hsvToRgb hue 255 255).green = 0 ∨
        (hsvToRgb hue 255 255).blue = 0)) := by
  have hfull := hsvToRgb_between hue 255 255 hh (by decide) (by decide) (by decide)
  have hp255 : hsvP 255 255 = 0 := by decide
  rw [hp255] at hfull
  have hshift : (value * (255 - saturation)) >>> 8 = hsvP saturation value := by
    rw [hsvP_eq saturation value hs hv, Nat.shiftRight_eq_div_pow]
  by_cases hs0 : saturation = 0
  · have hgray : hsvToRgb hue saturation value =
        { red := value, green := value, blue := value } := by
      simp only [hsvToRgb, if_pos hs0]
    rw [hgray]
    refine ⟨⟨le_refl _, le_refl _, le_refl _⟩, Or.inl rfl, by simp, fun hpos => by omega,
      fun h0 => by rw [h0], ?_⟩
    exact ⟨hfull.2.2.2.1, hfull.2.2.2.2⟩
  · have hb := hsvToRgb_between hue saturation value hh hs hv hs0
    rw [hshift]
    refine ⟨⟨hb.1.2, hb.2.1.2, hb.2.2.1.2⟩, hb.2.2.2.1, by omega, fun _ => by omega,
      fun h0 => ?_, ⟨hfull.2.2.2.1, hfull.2.2.2.2⟩⟩
    have hr : (hsvToRgb hue saturation value).red = 0 := by omega
    have hg : (hsvToRgb hue saturation value).green = 0 := by omega
    have hbl : (hsvToRgb hue saturation value).blue = 0 := by omega
    cases hc : hsvToRgb hue saturation value with
    | mk red green blue =>
      rw [hc] at hr hg hbl
      dsimp only at hr hg hbl
      rw [hr, hg, hbl]

/-- Instances of `hsvToRgb_channels`: the smallest channel of
`hsvToRgb 100 200 150`, and black for the value 0. -/
theorem hsvToRgb_channels_witness :
    min (hsvToRgb 100 200 150).red
        (min (hsvToRgb 100 200 150).green (hsvToRgb 100 200 150).blue) =
      (150 * (255 - 200)) >>> 8 ∧
    hsvToRgb 77 200 0 = { red := 0, green := 0, blue := 0 } :=
  ⟨(hsvToRgb_channels 100 200 150 (by decide) (by decide) (by decide)).2.2.2.1 (by decide),
   (hsvToRgb_channels 77 200 0 (by decide) (by decide) (by decide)).2.2.2.2.1 rfl⟩

end Spokes
